import Mathlib

/-!
# Verification of the reddit-memes-api backend

A shallow embedding of the backend's core logic:

* the cursor-based pagination service (`app/services/allmemes.py`),
* the `/memes/allmemes`, `/memes/send-report`, `/memes/top` and `/health`
  HTTP handlers (`app/main.py`),
* the feed normalization (`app/services/reddit.py`), and
* the Telegram digest formatting (`app/services/telegram_report.py`).

Modelling conventions:

* machine timestamps (`created_at`, `reddit_created_at`) are modelled as `Int`
  (epoch-like values); the float `upvote_ratio` is carried opaquely as an `Int`
  since no verified property computes with it;
* Python exceptions become `Except`; FastAPI's `HTTPException` becomes the
  `HTTPError` structure;
* byte strings are `List Nat` (each entry < 256); text decoding of bytes is
  modelled for the ASCII subset, which covers every value the program encodes;
* `json.dumps`/`json.loads` are modelled for the single-key string-valued
  objects the cursor scheme produces (`jsonDumpsChars` / `parseJsonObj`);
* SQL `ORDER BY` is modelled with the stable `List.insertionSort`, one
  admissible ordering of tie rows.
-/

namespace RedditMemes

/-- Embedding of `fastapi.HTTPException`: an HTTP status plus a detail string. -/
structure HTTPError where
  status : Nat
  detail : String
deriving Repr, DecidableEq

/-- The rendering `str(e)` of a `fastapi.HTTPException`, as produced by Starlette. -/
def httpErrorStr (e : HTTPError) : String :=
  toString e.status ++ ": " ++ e.detail

/-- Exceptions that can escape `MemeDBService.get_paginated_memes`: either the
`HTTPException`s it raises itself, or a database error (e.g. a failed cast of
the cursor parameter). -/
inductive ServiceError where
  | http (e : HTTPError)
  | db (msg : String)
deriving Repr, DecidableEq

/-! ## Decimal rendering and parsing

`str(value)` on the Python side, and the cast the database applies to the
cursor parameter on the way back in. -/

/-- The decimal digit character for `n < 10`. -/
def digitChar (n : Nat) : Char := Char.ofNat (48 + n)

/-- Fuel-driven decimal rendering of a natural number (most significant digit
first); fuel `n` suffices for value `n`. -/
def natDecimalGo : Nat → Nat → List Char → List Char
  | 0, n, acc => digitChar n :: acc
  | fuel + 1, n, acc =>
    if n < 10 then digitChar n :: acc
    else natDecimalGo fuel (n / 10) (digitChar (n % 10) :: acc)

/-- Decimal digits of a natural number, as Python's `str` renders it. -/
def natDecimal (n : Nat) : List Char := natDecimalGo n n []

/-- Embedding of Python `str` on integers. -/
def intToDecimal (i : Int) : String :=
  if i < 0 then String.mk ('-' :: natDecimal i.natAbs)
  else String.mk (natDecimal i.natAbs)

/-- Is `c` a decimal digit? -/
def isDigitCh (c : Char) : Bool := 48 ≤ c.toNat && c.toNat ≤ 57

/-- Parse an unsigned decimal numeral. -/
def decimalToNat? (cs : List Char) : Option Nat :=
  if cs ≠ [] && cs.all isDigitCh then
    some (cs.foldl (fun a c => a * 10 + (c.toNat - 48)) 0)
  else none

/-- Embedding of the integer cast the database applies to the textual cursor
parameter: an optional sign followed by decimal digits. -/
def decimalToInt? (s : String) : Option Int :=
  match s.data with
  | [] => none
  | c :: rest =>
    if c = '-' then (decimalToNat? rest).map (fun n => -(Int.ofNat n))
    else (decimalToNat? (c :: rest)).map Int.ofNat

/-! ## Base64 (`base64.b64encode` / `base64.b64decode`)

Encoded at the level of byte values (`List Nat`). -/

/-- The standard base64 alphabet, as a byte value for sextet `n < 64`. -/
def b64Code (n : Nat) : Nat :=
  if n < 26 then 65 + n
  else if n < 52 then 97 + (n - 26)
  else if n < 62 then 48 + (n - 52)
  else if n = 62 then 43
  else 47

/-- Inverse of the base64 alphabet. -/
def b64Inv (c : Nat) : Option Nat :=
  if 65 ≤ c && c ≤ 90 then some (c - 65)
  else if 97 ≤ c && c ≤ 122 then some (26 + (c - 97))
  else if 48 ≤ c && c ≤ 57 then some (52 + (c - 48))
  else if c = 43 then some 62
  else if c = 47 then some 63
  else none

/-- Is byte `c` in the base64 alphabet (excluding padding)? -/
def isB64Code (c : Nat) : Bool := (b64Inv c).isSome

/-- Byte value of the `=` padding character. -/
def b64Pad : Nat := 61

/-- Embedding of `base64.b64encode` on a byte list, producing the byte values
of the encoded text. -/
def b64EncodeNats : List Nat → List Nat
  | [] => []
  | [b0] => [b64Code (b0 / 4), b64Code (b0 % 4 * 16), b64Pad, b64Pad]
  | [b0, b1] =>
    [b64Code (b0 / 4), b64Code (b0 % 4 * 16 + b1 / 16), b64Code (b1 % 16 * 4), b64Pad]
  | b0 :: b1 :: b2 :: rest =>
    b64Code (b0 / 4) :: b64Code (b0 % 4 * 16 + b1 / 16) ::
      b64Code (b1 % 16 * 4 + b2 / 64) :: b64Code (b2 % 64) :: b64EncodeNats rest

/-- Decode groups of four base64 characters into bytes; `=` padding is only
accepted at the very end. -/
def b64DecodeGroups : List Nat → Option (List Nat)
  | [] => some []
  | c0 :: c1 :: c2 :: c3 :: rest => do
    let s0 ← b64Inv c0
    let s1 ← b64Inv c1
    if c2 = b64Pad then
      if c3 = b64Pad && rest = [] then some [s0 * 4 + s1 / 16] else none
    else do
      let s2 ← b64Inv c2
      if c3 = b64Pad then
        if rest = [] then some [s0 * 4 + s1 / 16, s1 % 16 * 16 + s2 / 4] else none
      else do
        let s3 ← b64Inv c3
        let tail ← b64DecodeGroups rest
        some ((s0 * 4 + s1 / 16) :: (s1 % 16 * 16 + s2 / 4) :: (s2 % 4 * 64 + s3) :: tail)
  | _ => none

/-- Embedding of `base64.b64decode` (default non-validating mode): characters
outside the alphabet and padding are discarded before decoding. -/
def b64DecodeNats (cs : List Nat) : Option (List Nat) :=
  b64DecodeGroups (cs.filter (fun c => isB64Code c || c = b64Pad))

/-! ## Bytes ↔ text

`str.encode()` / `bytes.decode()`.  The program only ever encodes ASCII text
(JSON with `ensure_ascii`, base64 output), so the byte→text direction is
modelled for the ASCII subset and fails outside it. -/

/-- Embedding of `str.encode()` restricted to ASCII text: the code point of
each character. -/
def stringToBytes (s : String) : List Nat := s.data.map Char.toNat

/-- Embedding of `bytes.decode()` restricted to the ASCII subset. -/
def bytesToText? (bs : List Nat) : Option String :=
  if bs.all (· < 128) then some (String.mk (bs.map Char.ofNat)) else none

/-! ## JSON (`json.dumps` / `json.loads`)

The cursor scheme serializes exactly one shape of value: a one-key object
whose value is a string (`{sort_by: str(last_value)}`).  `jsonDumpsChars`
renders it the way `json.dumps` does (`ensure_ascii`, default separators) and
`parseJsonObj` parses that shape back, accepting the escapes and surrounding
whitespace `json.loads` would. -/

/-- Opening brace character. -/
def lbrace : Char := Char.ofNat 123

/-- Closing brace character. -/
def rbrace : Char := Char.ofNat 125

/-- Render `n` as exactly four lowercase hex digits. -/
def hex4 (n : Nat) : List Char :=
  let hexDigit : Nat → Char := fun d =>
    if d < 10 then Char.ofNat (48 + d) else Char.ofNat (87 + d)
  [hexDigit (n / 4096 % 16), hexDigit (n / 256 % 16), hexDigit (n / 16 % 16),
    hexDigit (n % 16)]

/-- JSON string escaping as `json.dumps` performs it with `ensure_ascii=True`:
`"` and `\` get a backslash escape, control characters and non-ASCII
characters become `\uXXXX` (a surrogate pair beyond the BMP). -/
def escapeJsonChar (c : Char) : List Char :=
  if c = '"' then ['\\', '"']
  else if c = '\\' then ['\\', '\\']
  else if c.toNat < 32 || 127 < c.toNat then
    if c.toNat ≤ 65535 then '\\' :: 'u' :: hex4 c.toNat
    else
      let v := c.toNat - 65536
      ('\\' :: 'u' :: hex4 (55296 + v / 1024)) ++ ('\\' :: 'u' :: hex4 (56320 + v % 1024))
  else [c]

/-- Escape a whole string for inclusion in a JSON string literal. -/
def escapeJson (s : String) : List Char := s.data.flatMap escapeJsonChar

/-- Rendering of `json.dumps({key: val})` with the default separators: the character list
of `{"key": "val"}`. -/
def jsonDumpsChars (key val : String) : List Char :=
  lbrace :: '"' ::
    (escapeJson key ++ '"' :: ':' :: ' ' :: '"' :: (escapeJson val ++ '"' :: [rbrace]))

/-- Hex digit value of a character, if it is one. -/
def hexVal? (c : Char) : Option Nat :=
  if 48 ≤ c.toNat && c.toNat ≤ 57 then some (c.toNat - 48)
  else if 97 ≤ c.toNat && c.toNat ≤ 102 then some (c.toNat - 87)
  else if 65 ≤ c.toNat && c.toNat ≤ 70 then some (c.toNat - 55)
  else none

/-- Parse the body of a JSON string literal (the opening quote already
consumed) up to its closing quote, resolving escapes; returns the decoded
characters and the rest of the input. -/
def parseStringBody : List Char → Option (List Char × List Char)
  | [] => none
  | c :: rest =>
    if c = '"' then some ([], rest)
    else if c = '\\' then
      match rest with
      | 'u' :: h1 :: h2 :: h3 :: h4 :: rest2 => do
        let d1 ← hexVal? h1
        let d2 ← hexVal? h2
        let d3 ← hexVal? h3
        let d4 ← hexVal? h4
        let (tail, rem) ← parseStringBody rest2
        some (Char.ofNat (d1 * 4096 + d2 * 256 + d3 * 16 + d4) :: tail, rem)
      | e :: rest2 => do
        let ch ←
          if e = '"' then some '"'
          else if e = '\\' then some '\\'
          else if e = '/' then some '/'
          else if e = 'n' then some '\n'
          else if e = 't' then some '\t'
          else if e = 'r' then some '\r'
          else if e = 'b' then some (Char.ofNat 8)
          else if e = 'f' then some (Char.ofNat 12)
          else none
        let (tail, rem) ← parseStringBody rest2
        some (ch :: tail, rem)
      | [] => none
    else do
      let (tail, rem) ← parseStringBody rest
      some (c :: tail, rem)

/-- Is `c` JSON whitespace? -/
def isJsonWs (c : Char) : Bool := c = ' ' || c = '\n' || c = '\t' || c = '\r'

/-- Expect `c` at the head of the input and consume it. -/
def expectCh (c : Char) : List Char → Option (List Char)
  | [] => none
  | x :: rest => if x = c then some rest else none

/-- Embedding of `json.loads`, restricted to the one shape of document the
cursor scheme produces: an object with a single key whose value is a string.  Returns the
key and the value. -/
def parseJsonObj (s : String) : Option (String × String) := do
  let r0 ← expectCh lbrace (s.data.dropWhile isJsonWs)
  let r1 ← expectCh '"' (r0.dropWhile isJsonWs)
  let (key, r2) ← parseStringBody r1
  let r3 ← expectCh ':' (r2.dropWhile isJsonWs)
  let r4 ← expectCh '"' (r3.dropWhile isJsonWs)
  let (val, r5) ← parseStringBody r4
  let r6 ← expectCh rbrace (r5.dropWhile isJsonWs)
  if r6.dropWhile isJsonWs = [] then some (String.mk key, String.mk val) else none

/-! ## Cursor tokens

`b64encode(json.dumps(cursor_data).encode()).decode()` on the way out;
`json.loads(b64decode(cursor.encode()).decode())` followed by
`.get(sort_by)` on the way in. -/

/-- Build the opaque continuation token for `{key: val}`. -/
def encodeCursorToken (key val : String) : String :=
  String.mk ((b64EncodeNats ((jsonDumpsChars key val).map Char.toNat)).map Char.ofNat)

/-- Decode an opaque continuation token back into its key/value pair.  `none`
models the exception path (`b64decode`, `bytes.decode` or `json.loads`
raising, or the document not being a one-key string object). -/
def decodeCursorToken (tok : String) : Option (String × String) := do
  let bytes ← b64DecodeNats (stringToBytes tok)
  let text ← bytesToText? bytes
  parseJsonObj text

/-! ## Data model (`app/models.py`)

The `memes` table.  Timestamps are modelled as `Int`; the float
`upvote_ratio` is carried opaquely as an `Int`. -/

/-- A row of the `memes` table. -/
structure Meme where
  id : Nat
  reddit_id : String
  title : String
  url : String
  score : Int
  upvote_ratio : Int
  created_at : Int
  reddit_created_at : Int
  author : String
  num_comments : Int
  permalink : String
  thumbnail : Option String
  is_video : Bool
deriving Repr, DecidableEq

/-- The sortable columns admitted by the pagination service's allow-list. -/
inductive SortField where
  | created_at
  | score
  | reddit_created_at
  | num_comments
deriving Repr, DecidableEq

/-- Map a `sort_by` request string to the column it names, `none` when it is
outside the allow-list `["created_at", "score", "reddit_created_at",
"num_comments"]`. -/
def sortFieldOf? (s : String) : Option SortField :=
  if s = "created_at" then some .created_at
  else if s = "score" then some .score
  else if s = "reddit_created_at" then some .reddit_created_at
  else if s = "num_comments" then some .num_comments
  else none

/-- The value of the sort column in a row. -/
def sortKey (f : SortField) (m : Meme) : Int :=
  match f with
  | .created_at => m.created_at
  | .score => m.score
  | .reddit_created_at => m.reddit_created_at
  | .num_comments => Meme.num_comments m

/-- The `ORDER BY` comparison: descending when `d = true`. -/
def sortRel (f : SortField) (d : Bool) (a b : Meme) : Prop :=
  if d then sortKey f b ≤ sortKey f a else sortKey f a ≤ sortKey f b

instance (f : SortField) (d : Bool) : DecidableRel (sortRel f d) := fun a b => by
  unfold sortRel; infer_instance

instance (f : SortField) (d : Bool) : IsTotal Meme (sortRel f d) :=
  ⟨fun a b => by unfold sortRel; split <;> exact Int.le_total _ _⟩

instance (f : SortField) (d : Bool) : IsTrans Meme (sortRel f d) :=
  ⟨fun a b c => by unfold sortRel; split <;> intro h1 h2 <;> omega⟩

/-- The strict version of `sortRel`: how consecutive rows compare when the
sort-column values are pairwise distinct. -/
def sortLT (f : SortField) (d : Bool) (a b : Meme) : Prop :=
  if d then sortKey f b < sortKey f a else sortKey f a < sortKey f b

instance (f : SortField) (d : Bool) : DecidableRel (sortLT f d) := fun a b => by
  unfold sortLT; infer_instance

instance (f : SortField) (d : Bool) : IsTrans Meme (sortLT f d) :=
  ⟨fun a b c => by unfold sortLT; split <;> intro h1 h2 <;> omega⟩

instance (f : SortField) (d : Bool) : IsAntisymm Meme (sortLT f d) :=
  ⟨fun a b => by unfold sortLT; split <;> exact fun h1 h2 => absurd h1 (not_lt.mpr h2.le)⟩

/-- The `WHERE sort_by < :cursor` (descending) / `> :cursor` (ascending)
range predicate. -/
def pageFilter (f : SortField) (d : Bool) (v : Int) (m : Meme) : Bool :=
  if d then decide (sortKey f m < v) else decide (v < sortKey f m)

/-- The rows the SQL query returns: apply the range predicate when a cursor
value is present, order by the sort column in the requested direction, and
stop after `lim` rows (`LIMIT :limit`). -/
def queriedRows (table : List Meme) (f : SortField) (d : Bool) (cv : Option Int)
    (lim : Nat) : List Meme :=
  let filtered := match cv with
    | none => table
    | some v => table.filter (pageFilter f d v)
  (filtered.insertionSort (sortRel f d)).take lim

/-- The `{items, next_cursor, has_next}` payload of the history endpoint. -/
structure PageResult where
  items : List Meme
  next_cursor : Option String
  has_next : Bool
deriving Repr, DecidableEq

/-- Evaluation of `order.lower() == "desc"`: is the requested direction
descending? -/
def descOf (order : String) : Bool :=
  String.mk (order.data.map Char.toLower) = "desc"

/-- The success payload of `get_paginated_memes` once the sort field and the
cursor value are resolved: fetch `limit + 1` rows, flag `has_next` when more
than `limit` came back, truncate to `limit`, and encode the last returned
row's sort-key value as the next cursor when a next page exists and at least
one item was returned. -/
def pageOf (table : List Meme) (f : SortField) (d : Bool) (cv : Option Int)
    (limit : Nat) (sort_by : String) : PageResult :=
  let memes := queriedRows table f d cv (limit + 1)
  let has_next := decide (limit < memes.length)
  let items := memes.take limit
  let next_cursor :=
    if has_next then
      match items.getLast? with
      | some last => some (encodeCursorToken sort_by (intToDecimal (sortKey f last)))
      | none => none
    else none
  ⟨items, next_cursor, has_next⟩

/-- The cursor-parsing step of `get_paginated_memes`: an absent or
Python-falsy (empty) cursor means no boundary; otherwise the token is
base64+JSON-decoded and the value stored under the requested sort field is
looked up (`.get(sort_by)`, which yields no boundary when the key differs);
any decode failure raises `400 Invalid cursor`. -/
def resolveCursorStr (cursor : Option String) (sort_by : String) :
    Except ServiceError (Option String) :=
  match cursor with
  | none => .ok none
  | some c =>
    if c.isEmpty then .ok none
    else
      match decodeCursorToken c with
      | some (k, v) => .ok (if k = sort_by then some v else none)
      | none => .error (.http ⟨400, "Invalid cursor"⟩)

/-- The database's view of the cursor parameter: the textual value is cast to
the column's type when the query runs; an uncastable value is a database
error.  A `None`/empty value was treated as "no cursor" by the service
(Python truthiness) and produces no `WHERE` clause. -/
def resolveCursorInt (cursorStr : Option String) : Except ServiceError (Option Int) :=
  match cursorStr with
  | none => .ok none
  | some v =>
    if v.isEmpty then .ok none
    else
      match decimalToInt? v with
      | some n => .ok (some n)
      | none => .error (.db "invalid input syntax for cursor parameter")

/-- Embedding of `MemeDBService.get_paginated_memes`
(`app/services/allmemes.py`): validate the sort field against the allow-list
(`400` otherwise), base64+JSON-decode the cursor if one is present (`400` on
any decode failure), fetch `limit + 1` rows with the range predicate, report
`has_next` when more than `limit` rows came back, truncate to `limit`, and
when there is a next page and at least one item, encode the last item's
sort-column value (as its `str`) into the next cursor.  A cursor value the
database cannot cast back to the column type is a database error. -/
def get_paginated_memes (table : List Meme) (cursor : Option String) (limit : Nat)
    (sort_by : String) (order : String) : Except ServiceError PageResult :=
  match sortFieldOf? sort_by with
  | none => .error (.http ⟨400, "Invalid sort field"⟩)
  | some f =>
    match resolveCursorStr cursor sort_by with
    | .error e => .error e
    | .ok cursorStr =>
      match resolveCursorInt cursorStr with
      | .error e => .error e
      | .ok cv => .ok (pageOf table f (descOf order) cv limit sort_by)

/-- Embedding of the `GET /memes/allmemes` handler (`app/main.py`,
`get_meme_history`): FastAPI validates `limit ∈ [1, 100]` and the `sort_by` /
`order` regexes up front (`422` on failure); the handler then calls the
service and converts any exception it raises — the service's own
`HTTPException`s included — into a `500`. -/
def get_meme_history (table : List Meme) (cursor : Option String) (limit : Nat)
    (sort_by : String) (order : String) : Except HTTPError PageResult :=
  if ¬ (1 ≤ limit ∧ limit ≤ 100) then .error ⟨422, "Input should be less than or equal to 100"⟩
  else if ¬ (sortFieldOf? sort_by).isSome then .error ⟨422, "String should match pattern"⟩
  else if ¬ (order = "asc" ∨ order = "desc") then .error ⟨422, "String should match pattern"⟩
  else
    match get_paginated_memes table cursor limit sort_by order with
    | .ok r => .ok r
    | .error (.http e) => .error ⟨500, httpErrorStr e⟩
    | .error (.db msg) => .error ⟨500, msg⟩

/-- Drive the history endpoint the way a paginating client does: start from
`cursor`, append each page's items, and keep following `next_cursor` while
`has_next` holds.  `fuel` bounds the number of round trips; an error response
ends the walk. -/
def followPages (table : List Meme) (limit : Nat) (sort_by order : String) :
    Nat → Option String → List Meme
  | 0, _ => []
  | fuel + 1, cur =>
    match get_meme_history table cur limit sort_by order with
    | .error _ => []
    | .ok r =>
      r.items ++ (if r.has_next then followPages table limit sort_by order fuel r.next_cursor else [])

/-! ## Feed client (`app/services/reddit.py`) -/

/-- The normalized record `RedditService.fetch_top_memes` builds per post (the
`meme` dict). -/
structure MemeData where
  reddit_id : String
  title : String
  url : String
  score : Int
  upvote_ratio : Int
  author : String
  num_comments : Int
  permalink : String
  reddit_created_at : Int
  thumbnail : Option String
  is_video : Bool
deriving Repr, DecidableEq

/-- One entry of `data['data']['children'][i]['data']` in the upstream
response.  Fields read with plain indexing are required (a missing one raises
upstream of anything verified here); fields read with `.get` are optional. -/
structure PostData where
  id : String
  title : String
  url : String
  url_overridden_by_dest : Option String
  score : Int
  upvote_ratio : Int
  author : String
  num_comments : Int
  permalink : String
  created_utc : Int
  thumbnail : Option String
  is_video : Option Bool
deriving Repr, DecidableEq

/-- Normalization of one upstream post into a record: prefer
`url_overridden_by_dest` over `url`, prefix the permalink, keep a missing
thumbnail as `None` and default a missing video flag to `False`. -/
def normalizePost (p : PostData) : MemeData :=
  { reddit_id := p.id
    title := p.title
    url := p.url_overridden_by_dest.getD p.url
    score := p.score
    upvote_ratio := PostData.upvote_ratio p
    author := p.author
    num_comments := p.num_comments
    permalink := "https://reddit.com" ++ p.permalink
    reddit_created_at := p.created_utc
    thumbnail := p.thumbnail
    is_video := p.is_video.getD false }

/-- How `memes.sort(key=lambda x: x["score"], reverse=True)` compares
records. -/
def scoreDesc (a b : MemeData) : Prop := b.score ≤ a.score

instance : DecidableRel scoreDesc := fun a b => by unfold scoreDesc; infer_instance

instance : IsTotal MemeData scoreDesc := ⟨fun a b => Int.le_total b.score a.score⟩

instance : IsTrans MemeData scoreDesc :=
  ⟨fun _ _ _ h1 h2 => le_trans h2 h1⟩

/-- Embedding of `RedditService.fetch_top_memes(limit)`.  `limit` is only
forwarded to the upstream request (`params = {"limit": limit, "t": "day"}`);
the body normalizes every child of whatever response came back and sorts the
result by score descending (Python's stable sort). -/
def fetch_top_memes (limit : Nat) (children : List PostData) : List MemeData :=
  let _ := limit
  (children.map normalizePost).insertionSort scoreDesc

/-! ## Persistence (`app/main.py`, `get_top_memes` store loop) -/

/-- A fresh table row built from a record (`models.Meme(**meme_data)`): `id`
is assigned by the database and `created_at` takes its `datetime.utcnow`
default. -/
def newMemeRow (d : MemeData) (freshId : Nat) (now : Int) : Meme :=
  { id := freshId
    reddit_id := d.reddit_id
    title := d.title
    url := d.url
    score := d.score
    upvote_ratio := MemeData.upvote_ratio d
    created_at := now
    reddit_created_at := d.reddit_created_at
    author := d.author
    num_comments := d.num_comments
    permalink := d.permalink
    thumbnail := d.thumbnail
    is_video := d.is_video }

/-- Embedding of `for key, value in meme_data.items(): setattr(existing_meme, key, value)`:
every field carried by the record is written onto the row; `id` and
`created_at` are not in the record and keep their stored values. -/
def applyMemeData (r : Meme) (d : MemeData) : Meme :=
  { r with
    reddit_id := d.reddit_id
    title := d.title
    url := d.url
    score := d.score
    upvote_ratio := MemeData.upvote_ratio d
    reddit_created_at := d.reddit_created_at
    author := d.author
    num_comments := d.num_comments
    permalink := d.permalink
    thumbnail := d.thumbnail
    is_video := d.is_video }

/-- The record-shaped part of a row (everything `applyMemeData` writes). -/
def dataOf (r : Meme) : MemeData :=
  { reddit_id := r.reddit_id
    title := r.title
    url := r.url
    score := r.score
    upvote_ratio := Meme.upvote_ratio r
    author := r.author
    num_comments := r.num_comments
    permalink := r.permalink
    reddit_created_at := r.reddit_created_at
    thumbnail := r.thumbnail
    is_video := r.is_video }

/-- Does row `r` carry external id `rid`?  The `WHERE reddit_id == ...`
lookup predicate. -/
def keyIs (rid : String) (r : Meme) : Bool := r.reddit_id = rid

/-- Update the first row matching `p` with `g`, leaving the rest unchanged —
the effect of `.filter(...).first()` followed by `setattr`. -/
def replaceFirst (p : Meme → Bool) (g : Meme → Meme) : List Meme → List Meme
  | [] => []
  | r :: rs => if p r then g r :: rs else r :: replaceFirst p g rs

/-- One iteration of the store loop in `get_top_memes`: look the record up by
`reddit_id`; insert a fresh row if absent, otherwise overwrite the first
matching row's record fields. -/
def upsertOne (t : List Meme) (d : MemeData) (freshId : Nat) (now : Int) : List Meme :=
  if t.any (keyIs d.reddit_id) then
    replaceFirst (keyIs d.reddit_id) (fun r => applyMemeData r d) t
  else t ++ [newMemeRow d freshId now]

/-! ## Notification service (`app/services/telegram_report.py`) -/

/-- The overview message `send_meme_report` sends first. -/
def overviewMessage (memes : List MemeData) (current_time : String) : String :=
  "🎯 Top " ++ toString memes.length ++ " Memes Report - " ++ current_time ++ "\n\n"

/-- The caption attached to the `i`-th record's photo message (1-based). -/
def memeCaption (i : Nat) (m : MemeData) : String :=
  toString i ++ ". " ++ m.title ++ "\n👍 Score: " ++ intToDecimal m.score ++
    " | 💬 Comments: " ++ intToDecimal m.num_comments ++ "\n🔗 " ++ m.permalink

/-- Every message text `TelegramService.send_meme_report` posts, in order: the
overview, then one caption per record with 1-based ranks. -/
def sendMemeReportMessages (memes : List MemeData) (current_time : String) : List String :=
  overviewMessage memes current_time ::
    (memes.enumFrom 1).map (fun im => memeCaption im.1 im.2)

/-! ## `POST /memes/send-report` (`app/main.py`, `send_meme_report`) -/

/-- The optional `credentials` object of the request body. -/
structure TelegramCredentials where
  bot_token : Option String := none
  chat_id : Option String := none
deriving Repr, DecidableEq

/-- The request body (`MemeReportRequest` in `app/schemas.py`). -/
structure MemeReportRequest where
  credentials : Option TelegramCredentials := none
  limit : Option Nat := none
deriving Repr, DecidableEq

/-- The acknowledgment body the endpoint returns. -/
structure SendReportAck where
  message : String
  using_env_credentials : Bool
  limit : Nat
deriving Repr, DecidableEq

/-- Python truthiness of an optional string: `None` and `""` are falsy. -/
def truthyStr : Option String → Bool
  | none => false
  | some s => !s.isEmpty

/-- Evaluation of `request.credentials.bot_token if request.credentials else
TELEGRAM_BOT_TOKEN`: the token the handler ends up with. -/
def resolvedBotToken (request : Option MemeReportRequest)
    (envBotToken : Option String) : Option String :=
  match (request.getD {}).credentials with
  | some c => c.bot_token
  | none => envBotToken

/-- Evaluation of `request.credentials.chat_id if request.credentials else
TELEGRAM_CHAT_ID`: the chat id the handler ends up with. -/
def resolvedChatId (request : Option MemeReportRequest)
    (envChatId : Option String) : Option String :=
  match (request.getD {}).credentials with
  | some c => c.chat_id
  | none => envChatId

/-- The `try:` body of the handler: resolve credentials (body credentials, if
a credentials object is present, else environment), resolve the limit, raise
`400` when a credential is falsy, then fetch the records (any fetch failure is
a plain exception).  The Telegram delivery itself happens in a background task
after the response. -/
def send_meme_report_try (request : Option MemeReportRequest)
    (envBotToken envChatId : Option String) (fetch : Except String (List MemeData)) :
    Except ServiceError SendReportAck :=
  let req := request.getD {}
  let bot_token := resolvedBotToken request envBotToken
  let chat_id := resolvedChatId request envChatId
  let limit := match req.limit with
    | some l => if l ≠ 0 then l else 20
    | none => 20
  if ¬ truthyStr bot_token then
    .error (.http ⟨400,
      "Please provide a valid Telegram bot token or set TELEGRAM_BOT_TOKEN environment variable"⟩)
  else if ¬ truthyStr chat_id then
    .error (.http ⟨400,
      "Please provide a valid Telegram chat ID or set TELEGRAM_CHAT_ID environment variable"⟩)
  else
    match fetch with
    | .error msg => .error (.db msg)
    | .ok _ =>
      .ok { message := "Meme report is being sent to Telegram"
            using_env_credentials := req.credentials.isNone
            limit := limit }

/-- Embedding of the `POST /memes/send-report` handler: the blanket
`except Exception` converts every exception raised in the body — the
handler's own `400` `HTTPException`s included — into a `500`. -/
def send_meme_report (request : Option MemeReportRequest)
    (envBotToken envChatId : Option String) (fetch : Except String (List MemeData)) :
    Except HTTPError SendReportAck :=
  match send_meme_report_try request envBotToken envChatId fetch with
  | .ok r => .ok r
  | .error (.http e) => .error ⟨500, httpErrorStr e⟩
  | .error (.db msg) => .error ⟨500, msg⟩

/-! ## `GET /health` (`app/main.py`, `health_check`) -/

/-- One component entry of the health payload. -/
structure ComponentHealth where
  status : String
  details : Option String
deriving Repr, DecidableEq

/-- The health payload plus the HTTP status it is delivered with. -/
structure HealthResult where
  httpStatus : Nat
  overall : String
  api : ComponentHealth
  reddit_api : ComponentHealth
  database : ComponentHealth
deriving Repr, DecidableEq

/-- Embedding of the `GET /health` handler.  `redditOk` / `dbOk` say whether
the respective connectivity probe succeeded; the `Err` strings carry the
exception text on failure.  Each failing probe marks its component unhealthy
and degrades the overall status; a non-healthy overall status is delivered as
a `503`. -/
def health_check (redditOk : Bool) (redditErr : String) (dbOk : Bool) (dbErr : String) :
    HealthResult :=
  let api : ComponentHealth := ⟨"healthy", some "FastAPI server is running"⟩
  let reddit_api : ComponentHealth :=
    if redditOk then ⟨"healthy", some "Successfully connected to Reddit API"⟩
    else ⟨"unhealthy", some ("Failed to connect to Reddit API: " ++ redditErr)⟩
  let database : ComponentHealth :=
    if dbOk then ⟨"healthy", some "Successfully connected to database"⟩
    else ⟨"unhealthy", some ("Failed to connect to database: " ++ dbErr)⟩
  let overall := if redditOk && dbOk then "healthy" else "degraded"
  { httpStatus := if overall ≠ "healthy" then 503 else 200
    overall := overall
    api := api
    reddit_api := reddit_api
    database := database }

/-! ## Verification vocabulary

Small derived definitions used only to state and prove properties. -/

/-- A printable ASCII character needing no JSON escape.  Every character of a
sort-field name or of a rendered sort-key value is plain. -/
def isPlain (c : Char) : Bool :=
  32 ≤ c.toNat && c.toNat ≤ 126 && c.toNat ≠ 34 && c.toNat ≠ 92

/-- The numeric value of a digit list, as `decimalToNat?` accumulates it. -/
def decVal (cs : List Char) : Nat :=
  cs.foldl (fun a c => a * 10 + (c.toNat - 48)) 0

/-- Sample row used by concrete witnesses: id `i`, score `sc`, `created_at`
`i`, all other fields fixed. -/
def sampleMeme (i : Nat) (sc : Int) : Meme :=
  { id := i, reddit_id := toString i, title := "t", url := "u", score := sc,
    upvote_ratio := 0, created_at := Int.ofNat i, reddit_created_at := 0,
    author := "a", num_comments := 0, permalink := "p", thumbnail := none,
    is_video := false }

/-- Two rows with the same score: the tie that breaks pagination
completeness. -/
def tieTable : List Meme := [sampleMeme 1 5, sampleMeme 2 5]

/-- Three rows with pairwise distinct scores. -/
def distinctTable : List Meme := [sampleMeme 1 3, sampleMeme 2 9, sampleMeme 3 7]

/-- Sample record used by upsert and report witnesses. -/
def sampleData (rid : String) (sc : Int) : MemeData :=
  { reddit_id := rid, title := "t", url := "u", score := sc, upvote_ratio := 0,
    author := "a", num_comments := 0, permalink := "p",
    reddit_created_at := 0, thumbnail := none, is_video := false }

/-- A record whose title alone is 10000 characters long. -/
def hugeTitleData : MemeData :=
  { sampleData "big" 1 with title := String.mk (List.replicate 10000 'a') }

/-- Sample upstream post used by feed-client witnesses. -/
def samplePost (pid : String) (sc : Int) : PostData :=
  { id := pid, title := "t", url := "u", url_overridden_by_dest := none,
    score := sc, upvote_ratio := 0, author := "a", num_comments := 0,
    permalink := "/r/memes/x", created_utc := 0, thumbnail := none,
    is_video := none }

/-! ## Theorems -/

/-! ### Decimal rendering round-trips through the database cast -/

theorem digitChar_toNat (n : Nat) (h : n < 10) : (digitChar n).toNat = 48 + n := by
  interval_cases n <;> rfl

theorem isDigitCh_digitChar (n : Nat) (h : n < 10) : isDigitCh (digitChar n) = true := by
  interval_cases n <;> rfl

theorem natDecimalGo_append (fuel : Nat) :
    ∀ (n : Nat) (acc : List Char),
      natDecimalGo fuel n acc = natDecimalGo fuel n [] ++ acc := by
  induction fuel with
  | zero => intro n acc; rfl
  | succ fuel ih =>
    intro n acc
    by_cases h : n < 10
    · simp [natDecimalGo, h]
    · rw [natDecimalGo, if_neg h, natDecimalGo, if_neg h, ih (n / 10),
        ih (n / 10) [digitChar (n % 10)]]
      simp

theorem natDecimalGo_digits (fuel : Nat) :
    ∀ (n : Nat), n ≤ fuel → ∀ c ∈ natDecimalGo fuel n [], isDigitCh c = true := by
  induction fuel with
  | zero =>
    intro n hn c hc
    interval_cases n
    simp only [natDecimalGo, List.mem_singleton] at hc
    subst hc; exact isDigitCh_digitChar 0 (by omega)
  | succ fuel ih =>
    intro n hn c hc
    by_cases h : n < 10
    · simp only [natDecimalGo, if_pos h, List.mem_singleton] at hc
      subst hc; exact isDigitCh_digitChar n h
    · rw [natDecimalGo, if_neg h, natDecimalGo_append] at hc
      rcases List.mem_append.mp hc with hc | hc
      · exact ih (n / 10) (by omega) c hc
      · simp only [List.mem_singleton] at hc
        subst hc; exact isDigitCh_digitChar (n % 10) (Nat.mod_lt n (by omega))

theorem natDecimal_digits (n : Nat) : ∀ c ∈ natDecimal n, isDigitCh c = true :=
  natDecimalGo_digits n n le_rfl

theorem natDecimalGo_ne_nil (fuel : Nat) :
    ∀ (n : Nat) (acc : List Char), natDecimalGo fuel n acc ≠ [] := by
  induction fuel with
  | zero => intro n acc; simp [natDecimalGo]
  | succ fuel ih =>
    intro n acc
    by_cases h : n < 10
    · simp [natDecimalGo, h]
    · rw [natDecimalGo, if_neg h]; exact ih _ _

theorem natDecimal_ne_nil (n : Nat) : natDecimal n ≠ [] :=
  natDecimalGo_ne_nil n n []

theorem decVal_append_digit (cs : List Char) (c : Char) :
    decVal (cs ++ [c]) = decVal cs * 10 + (c.toNat - 48) := by
  simp [decVal, List.foldl_append]

theorem decVal_natDecimalGo (fuel : Nat) :
    ∀ (n : Nat), n ≤ fuel → decVal (natDecimalGo fuel n []) = n := by
  induction fuel with
  | zero =>
    intro n hn
    interval_cases n
    simp [natDecimalGo, decVal, digitChar_toNat 0 (by omega)]
  | succ fuel ih =>
    intro n hn
    by_cases h : n < 10
    · simp [natDecimalGo, h, decVal, digitChar_toNat n h]
    · rw [natDecimalGo, if_neg h, natDecimalGo_append, decVal_append_digit,
        ih (n / 10) (by omega), digitChar_toNat (n % 10) (Nat.mod_lt n (by omega))]
      omega

theorem decVal_natDecimal (n : Nat) : decVal (natDecimal n) = n :=
  decVal_natDecimalGo n n le_rfl

theorem decimalToNat?_natDecimal (n : Nat) : decimalToNat? (natDecimal n) = some n := by
  have hv := decVal_natDecimal n
  unfold decVal at hv
  rw [decimalToNat?, if_pos, hv]
  rw [Bool.and_eq_true, decide_eq_true_iff, List.all_eq_true]
  exact ⟨natDecimal_ne_nil n, natDecimal_digits n⟩

theorem natDecimal_head_ne_neg (n : Nat) (c : Char) (cs : List Char)
    (h : natDecimal n = c :: cs) : ¬ c = '-' := by
  intro hc
  have := natDecimal_digits n c (h ▸ List.mem_cons_self c cs)
  subst hc
  simp [isDigitCh] at this

theorem decimalToInt?_mk_cons (c : Char) (rest : List Char) :
    decimalToInt? (String.mk (c :: rest)) =
      if c = '-' then (decimalToNat? rest).map (fun n => -(Int.ofNat n))
      else (decimalToNat? (c :: rest)).map Int.ofNat := rfl

/-- Rendering an integer with `str` parses back to that integer under the
database's cast. -/
theorem decimalToInt?_intToDecimal (i : Int) : decimalToInt? (intToDecimal i) = some i := by
  by_cases h : i < 0
  · rw [intToDecimal, if_pos h, decimalToInt?_mk_cons, if_pos rfl,
      decimalToNat?_natDecimal]
    simp only [Option.map_some', Option.some.injEq, Int.ofNat_eq_coe]
    omega
  · rw [intToDecimal, if_neg h]
    rcases hd : natDecimal i.natAbs with _ | ⟨c, cs⟩
    · exact absurd hd (natDecimal_ne_nil _)
    · rw [decimalToInt?_mk_cons, if_neg (natDecimal_head_ne_neg _ _ _ hd),
        ← hd, decimalToNat?_natDecimal]
      simp only [Option.map_some', Option.some.injEq, Int.ofNat_eq_coe]
      omega

theorem intToDecimal_data (i : Int) :
    (intToDecimal i).data =
      if i < 0 then '-' :: natDecimal i.natAbs else natDecimal i.natAbs := by
  by_cases h : i < 0 <;> simp [intToDecimal, h]

theorem isPlain_digit (c : Char) (h : isDigitCh c = true) : isPlain c = true := by
  simp only [isDigitCh, Bool.and_eq_true, decide_eq_true_iff] at h
  simp only [isPlain, Bool.and_eq_true, decide_eq_true_iff]
  omega

/-- Every character of a rendered integer is plain (no JSON escaping). -/
theorem intToDecimal_plain (i : Int) : ∀ c ∈ (intToDecimal i).data, isPlain c = true := by
  intro c hc
  rw [intToDecimal_data] at hc
  by_cases h : i < 0
  · rw [if_pos h] at hc
    rcases List.mem_cons.mp hc with hc | hc
    · subst hc; decide
    · exact isPlain_digit c (natDecimal_digits _ c hc)
  · rw [if_neg h] at hc
    exact isPlain_digit c (natDecimal_digits _ c hc)

theorem intToDecimal_data_ne_nil (i : Int) : (intToDecimal i).data ≠ [] := by
  rw [intToDecimal_data]
  by_cases h : i < 0
  · simp [h]
  · simp only [if_neg h]
    exact natDecimal_ne_nil _

theorem intToDecimal_ne_empty (i : Int) : (intToDecimal i).isEmpty = false := by
  have h := intToDecimal_data_ne_nil i
  rw [Bool.eq_false_iff]
  intro he
  rw [(String.isEmpty_iff _).mp he] at h
  exact h rfl

/-! ### Base64 round-trip -/

theorem b64Inv_b64Code : ∀ n, n < 64 → b64Inv (b64Code n) = some n := by decide

theorem b64Code_lt : ∀ n, n < 64 → b64Code n < 128 := by decide

theorem b64Code_ne_pad : ∀ n, n < 64 → ¬ b64Code n = b64Pad := by decide

theorem isB64Code_b64Code (n : Nat) (h : n < 64) : isB64Code (b64Code n) = true := by
  rw [isB64Code, b64Inv_b64Code n h]; rfl

theorem char_toNat_ofNat : ∀ n, n < 128 → (Char.ofNat n).toNat = n := by decide

theorem sextet_ok (m : Nat) (h : m < 64) :
    (isB64Code (b64Code m) || decide (b64Code m = b64Pad)) = true ∧ b64Code m < 128 :=
  ⟨by rw [isB64Code_b64Code m h]; rfl, b64Code_lt m h⟩

/-- Every byte the encoder emits is in the base64 alphabet or is padding, and
is ASCII. -/
theorem b64EncodeNats_mem (bs : List Nat) (hb : ∀ b ∈ bs, b < 256) :
    ∀ c ∈ b64EncodeNats bs, ((isB64Code c || decide (c = b64Pad)) = true ∧ c < 128) := by
  induction bs using b64EncodeNats.induct with
  | case1 => intro c hc; simp [b64EncodeNats] at hc
  | case2 b0 =>
    intro c hc
    have h0 : b0 < 256 := hb b0 (by simp)
    simp only [b64EncodeNats, List.mem_cons, List.not_mem_nil, or_false] at hc
    rcases hc with rfl | rfl | rfl | rfl
    · exact sextet_ok _ (by omega)
    · exact sextet_ok _ (by omega)
    · exact ⟨by decide, by decide⟩
    · exact ⟨by decide, by decide⟩
  | case3 b0 b1 =>
    intro c hc
    have h0 : b0 < 256 := hb b0 (by simp)
    have h1 : b1 < 256 := hb b1 (by simp)
    simp only [b64EncodeNats, List.mem_cons, List.not_mem_nil, or_false] at hc
    rcases hc with rfl | rfl | rfl | rfl
    · exact sextet_ok _ (by omega)
    · exact sextet_ok _ (by omega)
    · exact sextet_ok _ (by omega)
    · exact ⟨by decide, by decide⟩
  | case4 b0 b1 b2 rest ih =>
    intro c hc
    have h0 : b0 < 256 := hb b0 (by simp)
    have h1 : b1 < 256 := hb b1 (by simp)
    have h2 : b2 < 256 := hb b2 (by simp)
    have hrest : ∀ b ∈ rest, b < 256 := fun b hbr => hb b (by simp [hbr])
    simp only [b64EncodeNats, List.mem_cons] at hc
    rcases hc with rfl | rfl | rfl | rfl | hc
    · exact sextet_ok _ (by omega)
    · exact sextet_ok _ (by omega)
    · exact sextet_ok _ (by omega)
    · exact sextet_ok _ (by omega)
    · exact ih hrest c hc

theorem optionBindSome {α β : Type} (a : α) (f : α → Option β) :
    (do let x ← some a; f x) = f a := rfl

/-- Decoding groups inverts the encoder on byte lists. -/
theorem b64DecodeGroups_encode (bs : List Nat) (hb : ∀ b ∈ bs, b < 256) :
    b64DecodeGroups (b64EncodeNats bs) = some bs := by
  induction bs using b64EncodeNats.induct with
  | case1 => rfl
  | case2 b0 =>
    have h0 : b0 < 256 := hb b0 (by simp)
    rw [b64EncodeNats, b64DecodeGroups,
      b64Inv_b64Code (b0 / 4) (by omega), optionBindSome,
      b64Inv_b64Code (b0 % 4 * 16) (by omega), optionBindSome,
      if_pos rfl, if_pos (by decide)]
    simp only [Option.some.injEq, List.cons.injEq, and_true]
    omega
  | case3 b0 b1 =>
    have h0 : b0 < 256 := hb b0 (by simp)
    have h1 : b1 < 256 := hb b1 (by simp)
    rw [b64EncodeNats, b64DecodeGroups,
      b64Inv_b64Code (b0 / 4) (by omega), optionBindSome,
      b64Inv_b64Code (b0 % 4 * 16 + b1 / 16) (by omega), optionBindSome,
      if_neg (b64Code_ne_pad (b1 % 16 * 4) (by omega)),
      b64Inv_b64Code (b1 % 16 * 4) (by omega), optionBindSome,
      if_pos rfl, if_pos rfl]
    simp only [Option.some.injEq, List.cons.injEq, and_true]
    constructor <;> omega
  | case4 b0 b1 b2 rest ih =>
    have h0 : b0 < 256 := hb b0 (by simp)
    have h1 : b1 < 256 := hb b1 (by simp)
    have h2 : b2 < 256 := hb b2 (by simp)
    have hrest : ∀ b ∈ rest, b < 256 := fun b hbr => hb b (by simp [hbr])
    rw [b64EncodeNats, b64DecodeGroups,
      b64Inv_b64Code (b0 / 4) (by omega), optionBindSome,
      b64Inv_b64Code (b0 % 4 * 16 + b1 / 16) (by omega), optionBindSome,
      if_neg (b64Code_ne_pad (b1 % 16 * 4 + b2 / 64) (by omega)),
      b64Inv_b64Code (b1 % 16 * 4 + b2 / 64) (by omega), optionBindSome,
      if_neg (b64Code_ne_pad (b2 % 64) (by omega)),
      b64Inv_b64Code (b2 % 64) (by omega), optionBindSome,
      ih hrest, optionBindSome]
    simp only [Option.some.injEq, List.cons.injEq, and_true]
    refine ⟨by omega, by omega, by omega⟩

/-- Full decoder/encoder round trip on byte lists: the discard pass keeps
every encoded character. -/
theorem b64DecodeNats_encode (bs : List Nat) (hb : ∀ b ∈ bs, b < 256) :
    b64DecodeNats (b64EncodeNats bs) = some bs := by
  rw [b64DecodeNats, List.filter_eq_self.mpr, b64DecodeGroups_encode bs hb]
  intro c hc
  exact (b64EncodeNats_mem bs hb c hc).1

/-! ### JSON round-trip on plain strings -/

theorem plain_not_quote (c : Char) (h : isPlain c = true) : ¬ c = '"' := by
  simp only [isPlain, Bool.and_eq_true, decide_eq_true_iff] at h
  intro hc
  apply h.1.2
  rw [hc]
  decide

theorem plain_not_backslash (c : Char) (h : isPlain c = true) : ¬ c = '\\' := by
  simp only [isPlain, Bool.and_eq_true, decide_eq_true_iff] at h
  intro hc
  apply h.2
  rw [hc]
  decide

theorem escapeJsonChar_plain (c : Char) (h : isPlain c = true) : escapeJsonChar c = [c] := by
  have hq := plain_not_quote c h
  have hb := plain_not_backslash c h
  simp only [isPlain, Bool.and_eq_true, decide_eq_true_iff] at h
  rw [escapeJsonChar, if_neg hq, if_neg hb, if_neg]
  simp only [Bool.or_eq_true, decide_eq_true_iff, not_or]
  omega

theorem flatMap_escape_plain (cs : List Char) (h : ∀ c ∈ cs, isPlain c = true) :
    cs.flatMap escapeJsonChar = cs := by
  induction cs with
  | nil => rfl
  | cons c cs ih =>
    rw [List.flatMap_cons, escapeJsonChar_plain c (h c (by simp)),
      ih (fun x hx => h x (by simp [hx]))]
    rfl

theorem escapeJson_plain (s : String) (h : ∀ c ∈ s.data, isPlain c = true) :
    escapeJson s = s.data :=
  flatMap_escape_plain s.data h

theorem parseStringBody_quote (rest : List Char) :
    parseStringBody ('"' :: rest) = some ([], rest) := by
  rw [parseStringBody.eq_def]
  simp

theorem parseStringBody_cons_plain (c : Char) (l : List Char)
    (hq : ¬ c = '"') (hb : ¬ c = '\\') :
    parseStringBody (c :: l) = (parseStringBody l).bind (fun p => some (c :: p.1, p.2)) := by
  rw [parseStringBody.eq_def]
  simp only [if_neg hq, if_neg hb]
  rcases hpl : parseStringBody l with _ | ⟨tail, rem⟩ <;> rfl

/-- Parsing a string literal body made of plain characters recovers exactly
those characters. -/
theorem parseStringBody_plain (cs : List Char) (rest : List Char)
    (h : ∀ c ∈ cs, isPlain c = true) :
    parseStringBody (cs ++ '"' :: rest) = some (cs, rest) := by
  induction cs with
  | nil => rw [List.nil_append, parseStringBody_quote]
  | cons c cs ih =>
    have hc := h c (by simp)
    rw [List.cons_append,
      parseStringBody_cons_plain c _ (plain_not_quote c hc) (plain_not_backslash c hc),
      ih (fun x hx => h x (by simp [hx]))]
    rfl

theorem expectCh_cons_self (c : Char) (l : List Char) : expectCh c (c :: l) = some l := by
  simp [expectCh]

theorem dropWhile_ws_cons_no (c : Char) (l : List Char) (h : isJsonWs c = false) :
    List.dropWhile isJsonWs (c :: l) = c :: l := by
  simp [List.dropWhile, h]

theorem dropWhile_ws_cons_yes (c : Char) (l : List Char) (h : isJsonWs c = true) :
    List.dropWhile isJsonWs (c :: l) = List.dropWhile isJsonWs l := by
  simp [List.dropWhile, h]

/-- Parsing with `json.loads` inverts `json.dumps` on single-key objects whose
key and value consist of plain characters. -/
theorem parseJsonObj_dumps (k v : String)
    (hk : ∀ c ∈ k.data, isPlain c = true) (hv : ∀ c ∈ v.data, isPlain c = true) :
    parseJsonObj (String.mk (jsonDumpsChars k v)) = some (k, v) := by
  rw [parseJsonObj]
  show (do
    let r0 ← expectCh lbrace ((jsonDumpsChars k v).dropWhile isJsonWs)
    let r1 ← expectCh '"' (r0.dropWhile isJsonWs)
    let (key, r2) ← parseStringBody r1
    let r3 ← expectCh ':' (r2.dropWhile isJsonWs)
    let r4 ← expectCh '"' (r3.dropWhile isJsonWs)
    let (val, r5) ← parseStringBody r4
    let r6 ← expectCh rbrace (r5.dropWhile isJsonWs)
    if r6.dropWhile isJsonWs = [] then some (String.mk key, String.mk val) else none)
      = some (k, v)
  rw [jsonDumpsChars, escapeJson_plain k hk, escapeJson_plain v hv,
    dropWhile_ws_cons_no lbrace _ (by decide), expectCh_cons_self, optionBindSome,
    dropWhile_ws_cons_no '"' _ (by decide), expectCh_cons_self, optionBindSome,
    parseStringBody_plain k.data _ hk, optionBindSome]
  dsimp only
  rw [dropWhile_ws_cons_no ':' _ (by decide), expectCh_cons_self, optionBindSome,
    dropWhile_ws_cons_yes ' ' _ (by decide),
    dropWhile_ws_cons_no '"' _ (by decide), expectCh_cons_self, optionBindSome,
    parseStringBody_plain v.data _ hv, optionBindSome]
  dsimp only
  rw [dropWhile_ws_cons_no rbrace _ (by decide), expectCh_cons_self, optionBindSome,
    List.dropWhile_nil, if_pos rfl]

/-! ### Cursor token round-trip -/

theorem jsonDumpsChars_ascii (k v : String)
    (hk : ∀ c ∈ k.data, isPlain c = true) (hv : ∀ c ∈ v.data, isPlain c = true) :
    ∀ c ∈ jsonDumpsChars k v, c.toNat < 128 := by
  intro c hc
  have hplain : ∀ x : Char, isPlain x = true → x.toNat < 128 := by
    intro x hx
    simp only [isPlain, Bool.and_eq_true, decide_eq_true_iff] at hx
    omega
  rw [jsonDumpsChars, escapeJson_plain k hk, escapeJson_plain v hv] at hc
  simp only [List.mem_cons, List.mem_append, List.not_mem_nil, or_false] at hc
  rcases hc with rfl | rfl | hc | rfl | rfl | rfl | rfl | hc | rfl | rfl
  · decide
  · decide
  · exact hplain c (hk c hc)
  · decide
  · decide
  · decide
  · decide
  · exact hplain c (hv c hc)
  · decide
  · decide

/-- A cursor token decodes back to exactly the key and value that were
encoded, for plain key and value. -/
theorem decodeCursorToken_encode (k v : String)
    (hk : ∀ c ∈ k.data, isPlain c = true) (hv : ∀ c ∈ v.data, isPlain c = true) :
    decodeCursorToken (encodeCursorToken k v) = some (k, v) := by
  have hascii := jsonDumpsChars_ascii k v hk hv
  have hbytes : ∀ b ∈ (jsonDumpsChars k v).map Char.toNat, b < 256 := by
    intro b hb
    rcases List.mem_map.mp hb with ⟨c, hc, rfl⟩
    exact lt_trans (hascii c hc) (by omega)
  have henc : ∀ b ∈ b64EncodeNats ((jsonDumpsChars k v).map Char.toNat), b < 128 :=
    fun b hb => (b64EncodeNats_mem _ hbytes b hb).2
  rw [decodeCursorToken, encodeCursorToken, stringToBytes]
  have hmapmap :
      ((b64EncodeNats ((jsonDumpsChars k v).map Char.toNat)).map Char.ofNat).map Char.toNat
        = b64EncodeNats ((jsonDumpsChars k v).map Char.toNat) := by
    have hco : ∀ b ∈ b64EncodeNats ((jsonDumpsChars k v).map Char.toNat),
        (Char.toNat ∘ Char.ofNat) b = b :=
      fun b hb => char_toNat_ofNat b (henc b hb)
    rw [List.map_map, List.map_congr_left hco, List.map_id']
  rw [show (String.mk ((b64EncodeNats ((jsonDumpsChars k v).map Char.toNat)).map Char.ofNat)).data
      = (b64EncodeNats ((jsonDumpsChars k v).map Char.toNat)).map Char.ofNat from rfl,
    hmapmap, b64DecodeNats_encode _ hbytes, optionBindSome]
  rw [bytesToText?, if_pos]
  · rw [optionBindSome]
    have hback : ((jsonDumpsChars k v).map Char.toNat).map Char.ofNat = jsonDumpsChars k v := by
      have hco : ∀ c ∈ jsonDumpsChars k v, (Char.ofNat ∘ Char.toNat) c = c :=
        fun c _ => Char.ofNat_toNat c
      rw [List.map_map, List.map_congr_left hco, List.map_id']
    rw [hback]
    exact parseJsonObj_dumps k v hk hv
  · rw [List.all_eq_true]
    intro b hb
    rcases List.mem_map.mp hb with ⟨c, hc, rfl⟩
    exact decide_eq_true (hascii c hc)

/-! ### Pagination: sorted-table lemmas -/

theorem sortLT_of_sortRel_ne (f : SortField) (d : Bool) (a b : Meme)
    (h1 : sortRel f d a b) (h2 : sortKey f a ≠ sortKey f b) : sortLT f d a b := by
  unfold sortRel at h1
  unfold sortLT
  cases d <;> simp only [if_pos, if_neg, Bool.false_eq_true, if_false, if_true] at * <;> omega

theorem pairwise_sortLT (f : SortField) (d : Bool) (l : List Meme)
    (hs : l.Pairwise (sortRel f d))
    (hd : l.Pairwise (fun a b => sortKey f a ≠ sortKey f b)) :
    l.Pairwise (sortLT f d) :=
  (hs.and hd).imp (fun h => sortLT_of_sortRel_ne f d _ _ h.1 h.2)

theorem keyNe_symmetric (f : SortField) :
    Symmetric (fun a b : Meme => sortKey f a ≠ sortKey f b) :=
  fun _ _ h => fun he => h he.symm

/-- A permutation of a list with pairwise-distinct sort keys again has
pairwise-distinct sort keys. -/
theorem distinct_of_perm (f : SortField) (l₁ l₂ : List Meme) (hp : l₁.Perm l₂)
    (hd : l₁.Pairwise (fun a b => sortKey f a ≠ sortKey f b)) :
    l₂.Pairwise (fun a b => sortKey f a ≠ sortKey f b) :=
  (List.Perm.pairwise_iff (fun h he => h he.symm) hp).mp hd

/-- Two strictly sorted permutations of each other are equal. -/
theorem eq_of_perm_sortLT (f : SortField) (d : Bool) (l₁ l₂ : List Meme)
    (hp : l₁.Perm l₂) (h₁ : l₁.Pairwise (sortLT f d)) (h₂ : l₂.Pairwise (sortLT f d)) :
    l₁ = l₂ :=
  List.eq_of_perm_of_sorted hp h₁ h₂

/-- On a table with pairwise-distinct sort keys, sorting the filtered table
equals filtering the sorted table. -/
theorem insertionSort_filter_comm (f : SortField) (d : Bool) (p : Meme → Bool)
    (l : List Meme) (hd : l.Pairwise (fun a b => sortKey f a ≠ sortKey f b)) :
    (l.filter p).insertionSort (sortRel f d) = (l.insertionSort (sortRel f d)).filter p := by
  have hsperm := List.perm_insertionSort (sortRel f d) l
  have hfperm := List.perm_insertionSort (sortRel f d) (l.filter p)
  apply eq_of_perm_sortLT f d
  · exact hfperm.trans (hsperm.filter p).symm
  · apply pairwise_sortLT f d _ (List.sorted_insertionSort (sortRel f d) (l.filter p))
    exact distinct_of_perm f _ _ hfperm.symm (hd.filter p)
  · apply pairwise_sortLT f d
    · exact (List.sorted_insertionSort (sortRel f d) l).filter p
    · exact (distinct_of_perm f _ _ hsperm.symm hd).filter p

theorem mem_rel_getLast {R : Meme → Meme → Prop} :
    ∀ (l : List Meme) (a : Meme), l.Pairwise R → l.getLast? = some a →
      ∀ x ∈ l, x = a ∨ R x a := by
  intro l
  induction l with
  | nil => intro a _ h x hx; simp at hx
  | cons c cs ih =>
    intro a hp hl x hx
    rcases cs with _ | ⟨c2, cs2⟩
    · simp only [List.getLast?_singleton, Option.some.injEq] at hl
      simp only [List.mem_singleton] at hx
      exact Or.inl (hx.trans hl)
    · rw [List.getLast?_cons_cons] at hl
      rcases List.mem_cons.mp hx with rfl | hx2
      · right
        have ha : a ∈ c2 :: cs2 := List.mem_of_mem_getLast? hl
        exact (List.pairwise_cons.mp hp).1 a ha
      · exact ih a (List.pairwise_cons.mp hp).2 hl x hx2

/-- On a strictly sorted list split as `done ++ rest` with `lastm` the last
row of `done`, the range predicate at `lastm`'s key keeps exactly `rest`. -/
theorem filter_pageFilter_suffix (f : SortField) (d : Bool) (done rest : List Meme)
    (lastm : Meme) (hs : (done ++ rest).Pairwise (sortLT f d))
    (hlast : done.getLast? = some lastm) :
    (done ++ rest).filter (pageFilter f d (sortKey f lastm)) = rest := by
  obtain ⟨hdone, hrest, hcross⟩ := List.pairwise_append.mp hs
  have hmem : lastm ∈ done := List.mem_of_mem_getLast? hlast
  rw [List.filter_append]
  rw [List.filter_eq_nil_iff.mpr, List.filter_eq_self.mpr, List.nil_append]
  · intro y hy
    have hlt : sortLT f d lastm y := hcross lastm hmem y hy
    unfold sortLT at hlt
    unfold pageFilter
    cases d <;> simp only [Bool.false_eq_true, if_false, if_true] at * <;>
      exact decide_eq_true hlt
  · intro x hx
    have hx' := mem_rel_getLast done lastm hdone hlast x hx
    unfold pageFilter
    cases d <;> simp only [Bool.false_eq_true, if_false, if_true] <;>
      (intro hc; rcases hx' with rfl | hlt)
    · exact absurd (of_decide_eq_true hc) (lt_irrefl _)
    · unfold sortLT at hlt
      simp only [Bool.false_eq_true, if_false] at hlt
      exact absurd (of_decide_eq_true hc) (not_lt.mpr hlt.le)
    · exact absurd (of_decide_eq_true hc) (lt_irrefl _)
    · unfold sortLT at hlt
      simp only [if_true] at hlt
      exact absurd (of_decide_eq_true hc) (not_lt.mpr hlt.le)

/-! ### Service-level reduction lemmas -/

theorem b64EncodeNats_ne_nil (b : Nat) (bs : List Nat) : b64EncodeNats (b :: bs) ≠ [] := by
  rcases bs with _ | ⟨b1, bs⟩
  · simp [b64EncodeNats]
  · rcases bs with _ | ⟨b2, bs⟩ <;> simp [b64EncodeNats]

theorem encodeCursorToken_ne_empty (k v : String) :
    (encodeCursorToken k v).isEmpty = false := by
  rw [Bool.eq_false_iff]
  intro he
  have hdata := congrArg String.data ((String.isEmpty_iff _).mp he)
  have hnil : b64EncodeNats ((jsonDumpsChars k v).map Char.toNat) = [] := by
    have : ((b64EncodeNats ((jsonDumpsChars k v).map Char.toNat)).map Char.ofNat) = [] := hdata
    exact List.map_eq_nil_iff.mp this
  rw [jsonDumpsChars, List.map_cons] at hnil
  exact b64EncodeNats_ne_nil _ _ hnil

theorem sortBy_plain (sort_by : String) (f : SortField)
    (hf : sortFieldOf? sort_by = some f) : ∀ c ∈ sort_by.data, isPlain c = true := by
  unfold sortFieldOf? at hf
  split_ifs at hf with h1 h2 h3 h4
  · subst h1; decide
  · subst h2; decide
  · subst h3; decide
  · subst h4; decide

/-- With a valid sort field and no cursor, the service succeeds with the
unfiltered page. -/
theorem get_paginated_memes_none (table : List Meme) (limit : Nat)
    (sort_by order : String) (f : SortField) (hf : sortFieldOf? sort_by = some f) :
    get_paginated_memes table none limit sort_by order =
      .ok (pageOf table f (descOf order) none limit sort_by) := by
  unfold get_paginated_memes
  rw [hf]
  rfl

/-- Parsing a token the service itself issued for this sort field recovers
the rendered boundary value. -/
theorem resolveCursorStr_issued (sort_by : String) (f : SortField) (n : Int)
    (hf : sortFieldOf? sort_by = some f) :
    resolveCursorStr (some (encodeCursorToken sort_by (intToDecimal n))) sort_by
      = .ok (some (intToDecimal n)) := by
  unfold resolveCursorStr
  dsimp only
  rw [encodeCursorToken_ne_empty sort_by (intToDecimal n)]
  simp only [Bool.false_eq_true, if_false,
    decodeCursorToken_encode sort_by (intToDecimal n) (sortBy_plain sort_by f hf)
      (intToDecimal_plain n), eq_self_iff_true, if_true]

/-- The database cast recovers the integer behind a rendered boundary
value. -/
theorem resolveCursorInt_decimal (n : Int) :
    resolveCursorInt (some (intToDecimal n)) = .ok (some n) := by
  unfold resolveCursorInt
  dsimp only
  rw [intToDecimal_ne_empty n]
  simp only [Bool.false_eq_true, if_false, decimalToInt?_intToDecimal n]

/-- With a valid sort field and a cursor the service itself issued for that
sort field, the service succeeds with the page filtered at the encoded
value. -/
theorem get_paginated_memes_issued (table : List Meme) (limit : Nat)
    (sort_by order : String) (f : SortField) (n : Int)
    (hf : sortFieldOf? sort_by = some f) :
    get_paginated_memes table (some (encodeCursorToken sort_by (intToDecimal n)))
        limit sort_by order =
      .ok (pageOf table f (descOf order) (some n) limit sort_by) := by
  unfold get_paginated_memes
  rw [hf]
  dsimp only
  rw [resolveCursorStr_issued sort_by f n hf]
  dsimp only
  rw [resolveCursorInt_decimal n]

/-- The endpoint forwards a service success unchanged once FastAPI validation
passes. -/
theorem get_meme_history_of_ok (table : List Meme) (cursor : Option String)
    (limit : Nat) (sort_by order : String) (r : PageResult)
    (hl : 1 ≤ limit ∧ limit ≤ 100) (hsf : (sortFieldOf? sort_by).isSome)
    (hord : order = "asc" ∨ order = "desc")
    (hser : get_paginated_memes table cursor limit sort_by order = .ok r) :
    get_meme_history table cursor limit sort_by order = .ok r := by
  unfold get_meme_history
  rw [if_neg (not_not_intro hl), if_neg (not_not_intro hsf), if_neg (not_not_intro hord),
    hser]

/-! ### Full pagination walk on a distinct-key table -/

/-- Walking the pages from any correctly positioned cursor returns exactly
the remaining suffix of the sorted table, provided the sort-key values are
pairwise distinct. -/
theorem followPages_collects (table : List Meme) (limit : Nat) (sort_by order : String)
    (f : SortField) (hf : sortFieldOf? sort_by = some f)
    (hord : order = "asc" ∨ order = "desc") (hl1 : 1 ≤ limit) (hl2 : limit ≤ 100)
    (hdist : table.Pairwise (fun a b => sortKey f a ≠ sortKey f b)) :
    ∀ (fuel : Nat) (done rest : List Meme) (cur : Option String),
      table.insertionSort (sortRel f (descOf order)) = done ++ rest →
      rest.length < fuel →
      ((done = [] ∧ cur = none) ∨
        (∃ lm, done.getLast? = some lm ∧
          cur = some (encodeCursorToken sort_by (intToDecimal (sortKey f lm))))) →
      followPages table limit sort_by order fuel cur = rest := by
  have hperm : (table.insertionSort (sortRel f (descOf order))).Perm table :=
    List.perm_insertionSort _ table
  have hstrict : (table.insertionSort (sortRel f (descOf order))).Pairwise
      (sortLT f (descOf order)) :=
    pairwise_sortLT f _ _ (List.sorted_insertionSort _ table)
      (distinct_of_perm f table _ hperm.symm hdist)
  intro fuel
  induction fuel with
  | zero => intro done rest cur _ hlen _; omega
  | succ fuel ih =>
    intro done rest cur hsplit hlen hcur
    have hpage : ∃ cv, get_paginated_memes table cur limit sort_by order =
        .ok (pageOf table f (descOf order) cv limit sort_by) ∧
        queriedRows table f (descOf order) cv (limit + 1) = rest.take (limit + 1) := by
      rcases hcur with ⟨rfl, rfl⟩ | ⟨lm, hlast, rfl⟩
      · refine ⟨none, get_paginated_memes_none table limit sort_by order f hf, ?_⟩
        rw [queriedRows]
        rw [List.nil_append] at hsplit
        rw [hsplit]
      · refine ⟨some (sortKey f lm),
          get_paginated_memes_issued table limit sort_by order f (sortKey f lm) hf, ?_⟩
        rw [queriedRows]
        rw [insertionSort_filter_comm f (descOf order) _ table hdist, hsplit,
          filter_pageFilter_suffix f (descOf order) done rest lm
            (hsplit ▸ hstrict) hlast]
    obtain ⟨cv, hsvc, hQ⟩ := hpage
    have hend := get_meme_history_of_ok table cur limit sort_by order _
      ⟨hl1, hl2⟩ (by rw [hf]; rfl) hord hsvc
    rw [followPages, hend]
    dsimp only [pageOf]
    rw [hQ]
    by_cases hc : rest.length ≤ limit
    · rw [List.take_of_length_le (show rest.length ≤ limit + 1 by omega),
        List.take_of_length_le hc,
        decide_eq_false (not_lt.mpr hc)]
      simp only [Bool.false_eq_true, if_false, List.append_nil]
    · push_neg at hc
      have hlenq : (rest.take (limit + 1)).length = limit + 1 :=
        List.length_take_of_le (by omega)
      have hlenitems : (rest.take limit).length = limit :=
        List.length_take_of_le (by omega)
      have htt : (rest.take (limit + 1)).take limit = rest.take limit := by
        rw [List.take_take, min_eq_left (by omega)]
      have hne : rest.take limit ≠ [] := by
        intro h0
        rw [h0] at hlenitems
        simp at hlenitems
        omega
      rw [hlenq, htt, decide_eq_true (show limit < limit + 1 by omega)]
      simp only [if_true]
      rw [List.getLast?_eq_getLast_of_ne_nil hne]
      have hrec : followPages table limit sort_by order fuel
          (some (encodeCursorToken sort_by
            (intToDecimal (sortKey f ((rest.take limit).getLast hne)))))
          = rest.drop limit := by
        apply ih (done ++ rest.take limit) (rest.drop limit)
        · rw [List.append_assoc, List.take_append_drop]
          exact hsplit
        · rw [List.length_drop]
          omega
        · right
          refine ⟨(rest.take limit).getLast hne, ?_, rfl⟩
          rw [List.getLast?_append_of_ne_nil done hne,
            List.getLast?_eq_getLast_of_ne_nil hne]
      rw [hrec, List.take_append_drop]

/-! ### Claim theorems: pagination invariants -/

/-- Every successful service response is `pageOf` at some resolved cursor
value. -/
theorem get_paginated_memes_ok_shape (table : List Meme) (cursor : Option String)
    (limit : Nat) (sort_by order : String) (r : PageResult)
    (hok : get_paginated_memes table cursor limit sort_by order = .ok r) :
    ∃ f cv, sortFieldOf? sort_by = some f ∧
      r = pageOf table f (descOf order) cv limit sort_by := by
  unfold get_paginated_memes at hok
  split at hok
  · exact absurd hok (by simp)
  rename_i f hf
  split at hok
  · exact absurd hok (by simp)
  rename_i cursorStr hcs
  split at hok
  · exact absurd hok (by simp)
  rename_i cv hcv
  exact ⟨f, cv, hf, (Except.ok.inj hok).symm⟩

theorem getLast?_isSome_eq (l : List Meme) : l.getLast?.isSome = !l.isEmpty := by
  rcases l with _ | ⟨a, l⟩
  · rfl
  · rw [List.getLast?_eq_getLast_of_ne_nil (List.cons_ne_nil a l)]
    rfl

/-- C10: a successful `get_paginated_memes` result has at most `limit` items,
its `next_cursor` is non-null exactly when `has_next` holds and the item list
is non-empty, and in particular `has_next = false` forces
`next_cursor = none`. -/
theorem C10_page_invariants (table : List Meme) (cursor : Option String)
    (limit : Nat) (sort_by order : String) (r : PageResult)
    (hok : get_paginated_memes table cursor limit sort_by order = .ok r) :
    r.items.length ≤ limit ∧
      r.next_cursor.isSome = (r.has_next && !r.items.isEmpty) ∧
      (r.has_next = false → r.next_cursor = none) := by
  obtain ⟨f, cv, hf, rfl⟩ := get_paginated_memes_ok_shape table cursor limit sort_by order r hok
  dsimp only [pageOf]
  refine ⟨?_, ?_, ?_⟩
  · rw [List.length_take]
    omega
  · by_cases hn : limit < (queriedRows table f (descOf order) cv (limit + 1)).length
    · rw [decide_eq_true hn, if_pos rfl, Bool.true_and, ← getLast?_isSome_eq]
      rcases hl : ((queriedRows table f (descOf order) cv (limit + 1)).take limit).getLast? with
        _ | last
      · rfl
      · rfl
    · rw [decide_eq_false hn]
      simp only [Bool.false_eq_true, if_false, Bool.false_and]
      rfl
  · intro hfalse
    rw [hfalse]
    simp only [Bool.false_eq_true, if_false]

/-- C10 witness: on a concrete three-row table with page size 1. -/
theorem C10_witness :
    (pageOf distinctTable SortField.score (descOf "desc") none 1 "score").items.length ≤ 1 ∧
      (pageOf distinctTable SortField.score (descOf "desc") none 1 "score").next_cursor.isSome
        = ((pageOf distinctTable SortField.score (descOf "desc") none 1 "score").has_next &&
          !(pageOf distinctTable SortField.score (descOf "desc") none 1 "score").items.isEmpty) ∧
      ((pageOf distinctTable SortField.score (descOf "desc") none 1 "score").has_next = false →
        (pageOf distinctTable SortField.score (descOf "desc") none 1 "score").next_cursor = none) :=
  C10_page_invariants distinctTable none 1 "score" "desc" _
    (get_paginated_memes_none distinctTable 1 "score" "desc" SortField.score rfl)

/-- C6: a successful call fetches at most `limit + 1` rows, ordered by the
sort column in the requested direction; when `limit + 1` rows come back it
reports `has_next = true`, truncates to `limit` items and encodes the last
returned row's sort-key value as the next cursor; with `limit` or fewer rows
it reports `has_next = false` and emits no cursor. -/
theorem C6_page_mechanics (table : List Meme) (cursor : Option String)
    (limit : Nat) (sort_by order : String) (f : SortField) (r : PageResult)
    (hf : sortFieldOf? sort_by = some f) (hl1 : 1 ≤ limit)
    (hok : get_paginated_memes table cursor limit sort_by order = .ok r) :
    ∃ cv,
      (queriedRows table f (descOf order) cv (limit + 1)).length ≤ limit + 1 ∧
      (queriedRows table f (descOf order) cv (limit + 1)).Pairwise (sortRel f (descOf order)) ∧
      r.items = (queriedRows table f (descOf order) cv (limit + 1)).take limit ∧
      r.has_next = decide (limit < (queriedRows table f (descOf order) cv (limit + 1)).length) ∧
      ((queriedRows table f (descOf order) cv (limit + 1)).length = limit + 1 →
        r.has_next = true ∧
        ∃ hne : r.items ≠ [],
          r.next_cursor = some (encodeCursorToken sort_by
            (intToDecimal (sortKey f (r.items.getLast hne))))) ∧
      ((queriedRows table f (descOf order) cv (limit + 1)).length ≤ limit →
        r.has_next = false ∧ r.next_cursor = none) := by
  obtain ⟨f2, cv, hf2, rfl⟩ :=
    get_paginated_memes_ok_shape table cursor limit sort_by order r hok
  rw [hf] at hf2
  have hff : f = f2 := Option.some.inj hf2
  subst f2
  refine ⟨cv, ?_, ?_, rfl, rfl, ?_, ?_⟩
  · unfold queriedRows
    rw [List.length_take]
    omega
  · unfold queriedRows
    exact List.Pairwise.sublist (List.take_sublist _ _)
      (List.sorted_insertionSort (sortRel f (descOf order)) _)
  · intro hfull
    have hlt : limit < (queriedRows table f (descOf order) cv (limit + 1)).length := by
      omega
    have hne : (queriedRows table f (descOf order) cv (limit + 1)).take limit ≠ [] := by
      intro h0
      have := congrArg List.length h0
      rw [List.length_take] at this
      simp only [List.length_nil] at this
      omega
    constructor
    · exact decide_eq_true hlt
    · refine ⟨hne, ?_⟩
      dsimp only [pageOf]
      rw [decide_eq_true hlt]
      simp only [if_true]
      rw [List.getLast?_eq_getLast_of_ne_nil hne]
  · intro hshort
    constructor
    · exact decide_eq_false (not_lt.mpr hshort)
    · dsimp only [pageOf]
      rw [decide_eq_false (not_lt.mpr hshort)]
      simp only [Bool.false_eq_true, if_false]

/-- C6 witness: concrete three-row table, page size 1, descending score. -/
theorem C6_witness :
    ∃ cv,
      (queriedRows distinctTable SortField.score (descOf "desc") cv 2).length ≤ 2 ∧
      (queriedRows distinctTable SortField.score (descOf "desc") cv 2).Pairwise
        (sortRel SortField.score (descOf "desc")) ∧
      (pageOf distinctTable SortField.score (descOf "desc") none 1 "score").items
        = (queriedRows distinctTable SortField.score (descOf "desc") cv 2).take 1 ∧
      (pageOf distinctTable SortField.score (descOf "desc") none 1 "score").has_next
        = decide (1 < (queriedRows distinctTable SortField.score (descOf "desc") cv 2).length) ∧
      ((queriedRows distinctTable SortField.score (descOf "desc") cv 2).length = 2 →
        (pageOf distinctTable SortField.score (descOf "desc") none 1 "score").has_next = true ∧
        ∃ hne : (pageOf distinctTable SortField.score (descOf "desc") none 1 "score").items ≠ [],
          (pageOf distinctTable SortField.score (descOf "desc") none 1 "score").next_cursor
            = some (encodeCursorToken "score" (intToDecimal (sortKey SortField.score
              ((pageOf distinctTable SortField.score (descOf "desc") none 1 "score").items.getLast hne))))) ∧
      ((queriedRows distinctTable SortField.score (descOf "desc") cv 2).length ≤ 1 →
        (pageOf distinctTable SortField.score (descOf "desc") none 1 "score").has_next = false ∧
        (pageOf distinctTable SortField.score (descOf "desc") none 1 "score").next_cursor = none) :=
  C6_page_mechanics distinctTable none 1 "score" "desc" SortField.score _ rfl (by omega)
    (get_paginated_memes_none distinctTable 1 "score" "desc" SortField.score rfl)

/-- C5: a `next_cursor` token issued by a successful call decodes, for the
same sort field, to exactly the rendered boundary value of the last returned
row. -/
theorem C5_cursor_roundtrip (table : List Meme) (cursor : Option String)
    (limit : Nat) (sort_by order : String) (f : SortField) (r : PageResult)
    (tok : String) (hf : sortFieldOf? sort_by = some f)
    (hok : get_paginated_memes table cursor limit sort_by order = .ok r)
    (htok : r.next_cursor = some tok) :
    ∃ last, r.items.getLast? = some last ∧
      decodeCursorToken tok = some (sort_by, intToDecimal (sortKey f last)) := by
  obtain ⟨f2, cv, hf2, rfl⟩ :=
    get_paginated_memes_ok_shape table cursor limit sort_by order r hok
  rw [hf] at hf2
  have hff : f = f2 := Option.some.inj hf2
  subst f2
  dsimp only [pageOf] at htok ⊢
  split at htok
  · split at htok
    · rename_i last hlast
      refine ⟨last, hlast, ?_⟩
      rw [← Option.some.inj htok]
      exact decodeCursorToken_encode sort_by (intToDecimal (sortKey f last))
        (sortBy_plain sort_by f hf) (intToDecimal_plain _)
    · exact absurd htok (by simp)
  · exact absurd htok (by simp)

/-- C5 witness: the first page of the concrete table issues the cursor
`eyJzY29yZSI6ICI5In0=` (base64 of `{"score": "9"}`), and decoding it yields
the boundary value `9`. -/
theorem C5_witness :
    ∃ last,
      (pageOf distinctTable SortField.score (descOf "desc") none 1 "score").items.getLast?
          = some last ∧
      decodeCursorToken "eyJzY29yZSI6ICI5In0=" =
        some ("score", intToDecimal (sortKey SortField.score last)) :=
  C5_cursor_roundtrip distinctTable none 1 "score" "desc" SortField.score
    (pageOf distinctTable SortField.score (descOf "desc") none 1 "score")
    "eyJzY29yZSI6ICI5In0=" rfl
    (get_paginated_memes_none distinctTable 1 "score" "desc" SortField.score rfl)
    (by decide)

/-- C1 (amended): when the rows' sort-key values are pairwise distinct,
walking `/memes/allmemes` from no cursor and following `next_cursor` until
`has_next = false` returns every row exactly once, in the requested sort
order.  (With duplicate sort-key values rows are lost at page boundaries —
see the counterexample.) -/
theorem C1_pagination_completeness_distinct (table : List Meme) (limit : Nat)
    (sort_by order : String) (f : SortField)
    (hf : sortFieldOf? sort_by = some f)
    (hord : order = "asc" ∨ order = "desc")
    (hl1 : 1 ≤ limit) (hl2 : limit ≤ 100)
    (hdist : table.Pairwise (fun a b => sortKey f a ≠ sortKey f b)) :
    followPages table limit sort_by order (table.length + 1) none
        = table.insertionSort (sortRel f (descOf order)) ∧
      (followPages table limit sort_by order (table.length + 1) none).Perm table ∧
      (followPages table limit sort_by order (table.length + 1) none).Pairwise
        (sortRel f (descOf order)) := by
  have hlen : (table.insertionSort (sortRel f (descOf order))).length = table.length :=
    (List.perm_insertionSort _ table).length_eq
  have heq := followPages_collects table limit sort_by order f hf hord hl1 hl2 hdist
    (table.length + 1) [] (table.insertionSort (sortRel f (descOf order))) none
    (List.nil_append _).symm (by omega) (Or.inl ⟨rfl, rfl⟩)
  refine ⟨heq, ?_, ?_⟩
  · rw [heq]
    exact List.perm_insertionSort _ table
  · rw [heq]
    exact List.sorted_insertionSort _ table

/-- C1 witness: the walk over the concrete three-row table with page size 1
returns all rows in descending score order. -/
theorem C1_witness :
    followPages distinctTable 1 "score" "desc" (distinctTable.length + 1) none
        = distinctTable.insertionSort (sortRel SortField.score (descOf "desc")) ∧
      (followPages distinctTable 1 "score" "desc" (distinctTable.length + 1) none).Perm
        distinctTable ∧
      (followPages distinctTable 1 "score" "desc" (distinctTable.length + 1) none).Pairwise
        (sortRel SortField.score (descOf "desc")) :=
  C1_pagination_completeness_distinct distinctTable 1 "score" "desc" SortField.score
    rfl (Or.inr rfl) (by omega) (by omega) (by decide)

/-- C1 counterexample: on a table with two rows of equal score, the walk with
page size 1 drops a row — the concatenation of all pages is not a permutation
of the table, refuting the claim as stated for arbitrary table states. -/
theorem C1_counterexample :
    ¬ (followPages tieTable 1 "score" "desc" (tieTable.length + 1) none).Perm tieTable := by
  decide

/-! ### Claim theorems: error handling of the endpoints -/

/-- C2 (code bug): a cursor that cannot be base64+JSON-decoded makes the
service raise its intended `400 Invalid cursor`, but the endpoint's blanket
`except Exception` wraps that very exception into a `500` — the client sees
a server error, not a client error. -/
theorem C2_malformed_cursor_500 (table : List Meme) (c : String) (limit : Nat)
    (sort_by order : String)
    (hl : 1 ≤ limit ∧ limit ≤ 100) (hsf : (sortFieldOf? sort_by).isSome)
    (hord : order = "asc" ∨ order = "desc")
    (hc1 : c.isEmpty = false) (hc2 : decodeCursorToken c = none) :
    get_meme_history table (some c) limit sort_by order
      = .error ⟨500, "400: Invalid cursor"⟩ := by
  obtain ⟨f, hf⟩ := Option.isSome_iff_exists.mp hsf
  have hres : resolveCursorStr (some c) sort_by
      = .error (.http ⟨400, "Invalid cursor"⟩) := by
    unfold resolveCursorStr
    dsimp only
    rw [hc1]
    simp only [Bool.false_eq_true, if_false, hc2]
  have hsvc : get_paginated_memes table (some c) limit sort_by order
      = .error (.http ⟨400, "Invalid cursor"⟩) := by
    unfold get_paginated_memes
    rw [hf, hres]
  unfold get_meme_history
  rw [if_neg (not_not_intro hl), if_neg (not_not_intro hsf),
    if_neg (not_not_intro hord), hsvc]
  rfl

/-- C2 witness: the undecodable cursor `%` on a concrete table yields the 500
wrapping of the 400. -/
theorem C2_witness :
    get_meme_history distinctTable (some "%") 20 "created_at" "desc"
      = .error ⟨500, "400: Invalid cursor"⟩ :=
  C2_malformed_cursor_500 distinctTable "%" 20 "created_at" "desc"
    ⟨by omega, by omega⟩ rfl (Or.inr rfl) rfl (by decide)

/-- C3 (code bug): when the resolved bot token or chat id is missing (falsy),
the handler raises its intended `400`, but the blanket `except Exception`
converts it into a `500`. -/
theorem C3_missing_credentials_500 (request : Option MemeReportRequest)
    (envBotToken envChatId : Option String) (fetch : Except String (List MemeData))
    (h : truthyStr (resolvedBotToken request envBotToken) = false ∨
      truthyStr (resolvedChatId request envChatId) = false) :
    ∃ detail, send_meme_report request envBotToken envChatId fetch
        = .error ⟨500, detail⟩ ∧
      (detail = "400: Please provide a valid Telegram bot token or set TELEGRAM_BOT_TOKEN environment variable" ∨
        detail = "400: Please provide a valid Telegram chat ID or set TELEGRAM_CHAT_ID environment variable") := by
  have htry : ∃ msg, send_meme_report_try request envBotToken envChatId fetch
      = .error (.http ⟨400, msg⟩) ∧
      (msg = "Please provide a valid Telegram bot token or set TELEGRAM_BOT_TOKEN environment variable" ∨
        msg = "Please provide a valid Telegram chat ID or set TELEGRAM_CHAT_ID environment variable") := by
    unfold send_meme_report_try
    dsimp only
    by_cases hb : truthyStr (resolvedBotToken request envBotToken) = true
    · have hc : truthyStr (resolvedChatId request envChatId) = false := by
        rcases h with h | h
        · rw [h] at hb
          exact absurd hb (by simp)
        · exact h
      rw [if_neg (not_not_intro hb), if_pos (by rw [hc]; simp)]
      exact ⟨_, rfl, Or.inr rfl⟩
    · rw [if_pos hb]
      exact ⟨_, rfl, Or.inl rfl⟩
  obtain ⟨msg, htry, hmsg⟩ := htry
  unfold send_meme_report
  rw [htry]
  rcases hmsg with rfl | rfl
  · exact ⟨_, rfl, Or.inl rfl⟩
  · exact ⟨_, rfl, Or.inr rfl⟩

/-- C3 witness: empty body and no environment token — the response is the 500
wrapping of the 400 bot-token message. -/
theorem C3_witness :
    ∃ detail, send_meme_report none none (some "chat") (.ok [])
        = .error ⟨500, detail⟩ ∧
      (detail = "400: Please provide a valid Telegram bot token or set TELEGRAM_BOT_TOKEN environment variable" ∨
        detail = "400: Please provide a valid Telegram chat ID or set TELEGRAM_CHAT_ID environment variable") :=
  C3_missing_credentials_500 none none (some "chat") (.ok []) (Or.inl rfl)

/-! ### Claim theorems: upsert semantics -/

theorem length_replaceFirst (p : Meme → Bool) (g : Meme → Meme) :
    ∀ t : List Meme, (replaceFirst p g t).length = t.length := by
  intro t
  induction t with
  | nil => rfl
  | cons r rs ih =>
    rw [replaceFirst]
    by_cases h : p r
    · rw [if_pos h, List.length_cons, List.length_cons]
    · rw [if_neg h, List.length_cons, List.length_cons, ih]

theorem exists_updated_of_any (p : Meme → Bool) (g : Meme → Meme) :
    ∀ t : List Meme, t.any p = true → ∃ r, p r = true ∧ g r ∈ replaceFirst p g t := by
  intro t
  induction t with
  | nil => intro h; simp at h
  | cons r rs ih =>
    intro h
    by_cases hp : p r
    · refine ⟨r, hp, ?_⟩
      rw [replaceFirst, if_pos hp]
      exact List.mem_cons_self _ _
    · rw [List.any_cons] at h
      simp only [hp, Bool.false_or] at h
      obtain ⟨r2, hp2, hmem⟩ := ih h
      refine ⟨r2, hp2, ?_⟩
      rw [replaceFirst, if_neg hp]
      exact List.mem_cons_of_mem _ hmem

theorem countP_replaceFirst (p : Meme → Bool) (g : Meme → Meme)
    (hg : ∀ r, p r = true → p (g r) = true) :
    ∀ t : List Meme, (replaceFirst p g t).countP p = t.countP p := by
  intro t
  induction t with
  | nil => rfl
  | cons r rs ih =>
    rw [replaceFirst]
    by_cases hp : p r
    · rw [if_pos hp, List.countP_cons, List.countP_cons, hp, hg r hp]
    · rw [if_neg hp, List.countP_cons, List.countP_cons, ih]

theorem replaceFirst_append_single (p : Meme → Bool) (g : Meme → Meme) (r : Meme)
    (hr : p r = true) :
    ∀ t : List Meme, (∀ x ∈ t, p x = false) →
      replaceFirst p g (t ++ [r]) = t ++ [g r] := by
  intro t
  induction t with
  | nil =>
    intro _
    rw [List.nil_append, List.nil_append, replaceFirst, if_pos hr]
  | cons x xs ih =>
    intro hall
    have hx : ¬ p x = true := by
      rw [hall x (List.mem_cons_self x xs)]
      simp
    rw [List.cons_append, replaceFirst, if_neg hx,
      ih (fun y hy => hall y (List.mem_cons_of_mem x hy)), List.cons_append]

/-- After an upsert, a row carrying the record's external id is present. -/
theorem upsertOne_any_key (t : List Meme) (d : MemeData) (i : Nat) (now : Int) :
    (upsertOne t d i now).any (keyIs d.reddit_id) = true := by
  unfold upsertOne
  by_cases h : t.any (keyIs d.reddit_id) = true
  · rw [if_pos h]
    obtain ⟨r, hp, hmem⟩ := exists_updated_of_any (keyIs d.reddit_id) _ t h
    apply List.any_eq_true.mpr
    refine ⟨applyMemeData r d, hmem, ?_⟩
    unfold keyIs applyMemeData
    simp
  · rw [if_neg h]
    apply List.any_eq_true.mpr
    refine ⟨newMemeRow d i now, by simp, ?_⟩
    unfold keyIs newMemeRow
    simp

/-- C4: upserting a record whose external id exists leaves the row count
unchanged and some row now carries exactly the record's fields; the row count
for that external id is unchanged by a second upsert of the same external id;
and starting from a table without the id, two upserts leave exactly one row
with that id, carrying the latest record's fields (its `id` and `created_at`
still from the first insertion). -/
theorem C4_upsert (t : List Meme) (d d2 : MemeData) (i i2 : Nat) (now now2 : Int)
    (hsame : d2.reddit_id = d.reddit_id) :
    (t.any (keyIs d.reddit_id) = true →
      (upsertOne t d i now).length = t.length ∧
      ∃ r ∈ upsertOne t d i now, dataOf r = d) ∧
    ((upsertOne (upsertOne t d i now) d2 i2 now2).countP (keyIs d.reddit_id)
      = (upsertOne t d i now).countP (keyIs d.reddit_id)) ∧
    (t.any (keyIs d.reddit_id) = false →
      (upsertOne (upsertOne t d i now) d2 i2 now2).filter (keyIs d.reddit_id)
        = [applyMemeData (newMemeRow d i now) d2] ∧
      dataOf (applyMemeData (newMemeRow d i now) d2) = d2) := by
  have hg : ∀ r, keyIs d.reddit_id r = true →
      keyIs d.reddit_id (applyMemeData r d2) = true := by
    intro r _
    unfold keyIs applyMemeData
    simp [hsame]
  refine ⟨?_, ?_, ?_⟩
  · intro hany
    constructor
    · unfold upsertOne
      rw [if_pos hany, length_replaceFirst]
    · obtain ⟨r, hp, hmem⟩ := exists_updated_of_any (keyIs d.reddit_id)
        (fun r => applyMemeData r d) t hany
      refine ⟨applyMemeData r d, ?_, rfl⟩
      unfold upsertOne
      rw [if_pos hany]
      exact hmem
  · have hany2 : (upsertOne t d i now).any (keyIs d2.reddit_id) = true := by
      rw [hsame]
      exact upsertOne_any_key t d i now
    rw [upsertOne, if_pos hany2, hsame]
    exact countP_replaceFirst (keyIs d.reddit_id) _ hg _
  · intro habsent
    have hnot : ¬ t.any (keyIs d.reddit_id) = true := by
      rw [habsent]
      simp
    have hfirst : upsertOne t d i now = t ++ [newMemeRow d i now] := by
      unfold upsertOne
      rw [if_neg hnot]
    have hallfalse : ∀ x ∈ t, keyIs d.reddit_id x = false := by
      intro x hx
      exact Bool.eq_false_iff.mpr (List.any_eq_false.mp habsent x hx)
    have hkeynew : keyIs d.reddit_id (newMemeRow d i now) = true := by
      unfold keyIs newMemeRow
      simp
    have hany2 : (upsertOne t d i now).any (keyIs d2.reddit_id) = true := by
      rw [hsame]
      exact upsertOne_any_key t d i now
    have hsecond : upsertOne (upsertOne t d i now) d2 i2 now2
        = t ++ [applyMemeData (newMemeRow d i now) d2] := by
      conv_lhs => rw [upsertOne]
      rw [if_pos hany2, hsame, hfirst,
        replaceFirst_append_single (keyIs d.reddit_id) _ _ hkeynew t hallfalse]
    rw [hsecond, List.filter_append, List.filter_eq_nil_iff.mpr
      (fun x hx => by rw [hallfalse x hx]; simp), List.nil_append]
    constructor
    · have hkeyapp : keyIs d.reddit_id (applyMemeData (newMemeRow d i now) d2) = true :=
        hg (newMemeRow d i now) hkeynew
      rw [List.filter_cons, hkeyapp]
      rfl
    · rfl

/-- C4 witness: a one-row table whose row carries the record's external id. -/
theorem C4_witness :
    (([sampleMeme 1 5].any (keyIs (sampleData "1" 7).reddit_id) = true →
      (upsertOne [sampleMeme 1 5] (sampleData "1" 7) 2 0).length = [sampleMeme 1 5].length ∧
      ∃ r ∈ upsertOne [sampleMeme 1 5] (sampleData "1" 7) 2 0, dataOf r = sampleData "1" 7) ∧
    ((upsertOne (upsertOne [sampleMeme 1 5] (sampleData "1" 7) 2 0) (sampleData "1" 9) 3 1).countP
        (keyIs (sampleData "1" 7).reddit_id)
      = (upsertOne [sampleMeme 1 5] (sampleData "1" 7) 2 0).countP
        (keyIs (sampleData "1" 7).reddit_id)) ∧
    ([sampleMeme 1 5].any (keyIs (sampleData "1" 7).reddit_id) = false →
      (upsertOne (upsertOne [sampleMeme 1 5] (sampleData "1" 7) 2 0) (sampleData "1" 9) 3 1).filter
          (keyIs (sampleData "1" 7).reddit_id)
        = [applyMemeData (newMemeRow (sampleData "1" 7) 2 0) (sampleData "1" 9)] ∧
      dataOf (applyMemeData (newMemeRow (sampleData "1" 7) 2 0) (sampleData "1" 9))
        = sampleData "1" 9)) :=
  C4_upsert [sampleMeme 1 5] (sampleData "1" 7) (sampleData "1" 9) 2 3 0 1 rfl

/-! ### Claim theorems: notification formatting -/

/-- C7 (amended): no length cap is applied anywhere in `send_meme_report` —
the `i`-th record is sent as exactly its formatted caption, whose text always
contains the complete title as a contiguous substring and is therefore at
least as long as the title. -/
theorem C7_messages_uncapped (memes : List MemeData) (t : String) (i : Nat)
    (m : MemeData) (hm : memes[i]? = some m) :
    (sendMemeReportMessages memes t)[i + 1]? = some (memeCaption (i + 1) m) ∧
      m.title.length ≤ (memeCaption (i + 1) m).length ∧
      List.IsInfix m.title.data (memeCaption (i + 1) m).data := by
  refine ⟨?_, ?_, ?_⟩
  · rw [sendMemeReportMessages, List.getElem?_cons_succ, List.getElem?_map,
      List.getElem?_enumFrom, hm]
    simp only [Option.map_some']
    rw [Nat.add_comm 1 i]
  · rw [memeCaption]
    simp only [String.length_append]
    omega
  · rw [memeCaption]
    refine ⟨(toString (i + 1) ++ ". ").data, ?_⟩
    refine ⟨("\n👍 Score: " ++ intToDecimal m.score ++ " | 💬 Comments: " ++
      intToDecimal m.num_comments ++ "\n🔗 " ++ m.permalink).data, ?_⟩
    show (toString (i + 1) ++ ". ").data ++ m.title.data ++ _ = _
    simp only [← String.data_append, String.append_assoc]

/-- C7 witness: a singleton report. -/
theorem C7_witness :
    (sendMemeReportMessages [sampleData "x" 1] "now")[1]?
        = some (memeCaption 1 (sampleData "x" 1)) ∧
      (sampleData "x" 1).title.length ≤ (memeCaption 1 (sampleData "x" 1)).length ∧
      List.IsInfix (sampleData "x" 1).title.data (memeCaption 1 (sampleData "x" 1)).data :=
  C7_messages_uncapped [sampleData "x" 1] "now" 0 (sampleData "x" 1) rfl

/-- C7 counterexample: a record with a 10000-character title is sent as a
single caption far beyond 4000 characters, with no truncation — refuting the
claimed cap. -/
theorem C7_counterexample :
    memeCaption 1 hugeTitleData ∈ sendMemeReportMessages [hugeTitleData] "now" ∧
      4000 < (memeCaption 1 hugeTitleData).length := by
  constructor
  · have hshape : sendMemeReportMessages [hugeTitleData] "now"
        = [overviewMessage [hugeTitleData] "now", memeCaption 1 hugeTitleData] := rfl
    rw [hshape]
    exact List.mem_cons_of_mem _ (List.mem_singleton.mpr rfl)
  · have htitle : hugeTitleData.title.length = 10000 := by
      show (List.replicate 10000 'a').length = 10000
      rw [List.length_replicate]
    rw [memeCaption]
    simp only [String.length_append]
    omega

/-! ### Claim theorems: feed normalization -/

/-- C8 (amended): `fetch_top_memes` returns one normalized record per
upstream child — so at most `limit` only when the upstream returns at most
`limit` children — sorted by score descending, substituting `None` for a
missing thumbnail and `False` for a missing video flag. -/
theorem C8_fetch_normalization (limit : Nat) (children : List PostData) :
    (fetch_top_memes limit children).length = children.length ∧
      (children.length ≤ limit → (fetch_top_memes limit children).length ≤ limit) ∧
      (fetch_top_memes limit children).Pairwise scoreDesc ∧
      (fetch_top_memes limit children).Perm (children.map normalizePost) ∧
      (∀ p : PostData, p.thumbnail = none → (normalizePost p).thumbnail = none) ∧
      (∀ p : PostData, p.is_video = none → (normalizePost p).is_video = false) := by
  have hperm : (fetch_top_memes limit children).Perm (children.map normalizePost) :=
    List.perm_insertionSort scoreDesc (children.map normalizePost)
  have hlen : (fetch_top_memes limit children).length = children.length := by
    rw [hperm.length_eq, List.length_map]
  refine ⟨hlen, ?_, ?_, hperm, ?_, ?_⟩
  · intro h
    omega
  · exact List.sorted_insertionSort scoreDesc (children.map normalizePost)
  · intro p hp
    show p.thumbnail = none
    exact hp
  · intro p hp
    show p.is_video.getD false = false
    rw [hp]
    rfl

/-- C8 witness: two upstream children, requested limit two. -/
theorem C8_witness :
    (fetch_top_memes 2 [samplePost "a" 1, samplePost "b" 2]).length
        = [samplePost "a" 1, samplePost "b" 2].length ∧
      ([samplePost "a" 1, samplePost "b" 2].length ≤ 2 →
        (fetch_top_memes 2 [samplePost "a" 1, samplePost "b" 2]).length ≤ 2) ∧
      (fetch_top_memes 2 [samplePost "a" 1, samplePost "b" 2]).Pairwise scoreDesc ∧
      (fetch_top_memes 2 [samplePost "a" 1, samplePost "b" 2]).Perm
        ([samplePost "a" 1, samplePost "b" 2].map normalizePost) ∧
      (∀ p : PostData, p.thumbnail = none → (normalizePost p).thumbnail = none) ∧
      (∀ p : PostData, p.is_video = none → (normalizePost p).is_video = false) :=
  C8_fetch_normalization 2 [samplePost "a" 1, samplePost "b" 2]

/-- C8 counterexample: if the upstream over-delivers (two children for
`limit = 1`), the function returns more than `limit` records — refuting "at
most limit for every upstream response". -/
theorem C8_counterexample :
    ¬ ((fetch_top_memes 1 [samplePost "a" 1, samplePost "b" 2]).length ≤ 1) := by
  decide

/-! ### Claim theorems: health check -/

/-- C9: the health endpoint reports 503 with overall status "degraded" when
either probe fails (the other component still reporting "healthy"), and 200
with "healthy" when both succeed; the API component is always "healthy". -/
theorem C9_health_degradation (redditOk dbOk : Bool) (redditErr dbErr : String) :
    (health_check redditOk redditErr dbOk dbErr).httpStatus
        = (if redditOk && dbOk then 200 else 503) ∧
      (health_check redditOk redditErr dbOk dbErr).overall
        = (if redditOk && dbOk then "healthy" else "degraded") ∧
      (health_check redditOk redditErr dbOk dbErr).api.status = "healthy" ∧
      (health_check redditOk redditErr dbOk dbErr).reddit_api.status
        = (if redditOk then "healthy" else "unhealthy") ∧
      (health_check redditOk redditErr dbOk dbErr).database.status
        = (if dbOk then "healthy" else "unhealthy") := by
  cases redditOk <;> cases dbOk <;>
    exact ⟨rfl, rfl, rfl, rfl, rfl⟩

end RedditMemes
